import Mathlib

/-!
Verification of the debugger-mcp DAP client core: a shallow embedding in Lean of
the repository's state-bearing operations (breakpoint store, watch store, session
registry, execution tools, the Content-Length framing loop and the source-path
resolver), with theorems settling the specification's claims about them.

Conventions of the embedding:
* JavaScript `Map` objects are modelled as association lists with first-match
  lookup, in-place replacement on `set` of an existing key, and appending on
  `set` of a fresh key (insertion order preserved, as in JS).
* `Date` timestamps are modelled as `Nat` ticks supplied by the caller.
* Adapter round trips (`session.evaluate`, `session.setBreakpoints`, connect,
  launch, ...) are modelled as oracle parameters: the value the external adapter
  process would return, `Except` for calls that can reject.
* JavaScript exceptions are modelled with `Except String`; a tool's `execute`
  returns its thrown error, the registry state it left behind, and the list of
  wire requests it emitted.
-/

namespace DebuggerMcp

/-! ## JavaScript Map model -/

/-- Association-list model of a JavaScript `Map`: first-match lookup,
`set` replaces in place or appends, `delete` removes the binding. -/
abbrev JsMap (α β : Type) : Type := List (α × β)

namespace JsMap

variable {α β : Type} [DecidableEq α]

/-- Model of `Map.prototype.get`. -/
def get (m : JsMap α β) (k : α) : Option β :=
  match m with
  | [] => none
  | (a, b) :: rest => if a = k then some b else get rest k

/-- Model of `Map.prototype.set`: replace the existing binding in place,
else append a new one (JS insertion order). -/
def set (m : JsMap α β) (k : α) (v : β) : JsMap α β :=
  match m with
  | [] => [(k, v)]
  | (a, b) :: rest => if a = k then (a, v) :: rest else (a, b) :: set rest k v

/-- Model of `Map.prototype.delete`. A JS `Map` holds at most one binding per
key, so removing every binding for `k` coincides with removing the unique one. -/
def delete (m : JsMap α β) (k : α) : JsMap α β :=
  match m with
  | [] => []
  | (a, b) :: rest => if a = k then delete rest k else (a, b) :: delete rest k

/-- Model of `Map.prototype.has`. -/
def has (m : JsMap α β) (k : α) : Bool :=
  (get m k).isSome

end JsMap

/-! ## Session data model (src/dap/managers/sessionManager.ts) -/

/-- Lifecycle states of a debug session (enum `SessionState`). -/
inductive SessionState where
  | connecting
  | connected
  | stopped
  | running
  | terminated
  | error
  deriving DecidableEq, Repr

/-- String value of a `SessionState` (the TS enum values), used in error texts. -/
def SessionState.toText : SessionState → String
  | .connecting => "connecting"
  | .connected => "connected"
  | .stopped => "stopped"
  | .running => "running"
  | .terminated => "terminated"
  | .error => "error"

/-- Interface `BreakpointInfo`; `createdAt : Date` is modelled as a `Nat` tick. -/
structure BreakpointInfo where
  id : Nat
  source : String
  line : Nat
  condition : Option String
  hitCount : Nat
  verified : Bool
  createdAt : Nat
  deriving DecidableEq, Repr

instance : Inhabited BreakpointInfo :=
  ⟨{ id := 0, source := "", line := 0, condition := none, hitCount := 0,
     verified := false, createdAt := 0 }⟩

/-- Interface `DebugEvent` (its `data : unknown` payload is kept as an opaque
string rendering). -/
structure DebugEvent where
  timestamp : Nat
  sessionId : String
  type : String
  data : String
  deriving DecidableEq, Repr

/-- Interface `WatchExpression` (src/dap/managers/watchManager.ts);
`lastEvaluated : Date` is a `Nat` tick. -/
structure WatchExpression where
  id : String
  expression : String
  value : Option String
  type : Option String
  error : Option String
  lastEvaluated : Option Nat
  deriving DecidableEq, Repr

/-- The per-session mutable cursor state of `DebugSession`
(src/dap/debugSession.ts): the current thread and frame ids. -/
structure DebugSessionCore where
  currentThreadId : Option Nat
  currentFrameId : Option Nat
  deriving DecidableEq, Repr

/-- Per-source breakpoint store: `Map<string, BreakpointInfo[]>`. -/
abbrev BreakpointStore := JsMap String (List BreakpointInfo)

/-- Per-session watch store: `Map<string, WatchExpression>`. -/
abbrev WatchStore := JsMap String WatchExpression

/-- Interface `SessionInfo`. -/
structure SessionInfo where
  session : DebugSessionCore
  state : SessionState
  createdAt : Nat
  lastActivityAt : Nat
  program : Option String
  adapter : String
  breakpoints : BreakpointStore
  events : List DebugEvent
  logFile : Option String
  watches : Option WatchStore
  sourceMapEnabled : Option Bool
  deriving DecidableEq, Repr

/-- The `SessionManager`'s `sessions` map (its `debugLogsDir` and the log-file
side effects are filesystem I/O outside the model). -/
abbrev Sessions := JsMap String SessionInfo

namespace SessionManager

/-- `SessionManager.logDebugEvent`: append an event to the session's in-memory
log (the optional file append is external I/O). -/
def logDebugEvent (sessions : Sessions) (sessionId : String) (type data : String)
    (now : Nat) : Sessions :=
  match JsMap.get sessions sessionId with
  | none => sessions
  | some info =>
      JsMap.set sessions sessionId
        { info with events := info.events ++
            [{ timestamp := now, sessionId := sessionId, type := type, data := data }] }

/-- `SessionManager.validateAndGet`. -/
def validateAndGet (sessions : Sessions) (sessionId : String)
    (requiredStates : Option (List SessionState)) : Except String SessionInfo :=
  match JsMap.get sessions sessionId with
  | none => .error ("Session " ++ sessionId ++ " not found")
  | some info =>
      match requiredStates with
      | some states =>
          if states.contains info.state then .ok info
          else .error ("Session " ++ sessionId ++ " is in state " ++ info.state.toText
            ++ ", expected one of: " ++ String.intercalate ", " (states.map SessionState.toText))
      | none => .ok info

/-- `SessionManager.ensureNotExists`: reject when a live session holds the id,
free the id when its holder is terminated or errored. -/
def ensureNotExists (sessions : Sessions) (sessionId : String) :
    Except String Sessions :=
  match JsMap.get sessions sessionId with
  | none => .ok sessions
  | some existing =>
      if existing.state ≠ SessionState.terminated ∧ existing.state ≠ SessionState.error then
        .error ("Session " ++ sessionId ++ " already exists and is " ++ existing.state.toText)
      else
        .ok (JsMap.delete sessions sessionId)

/-- `SessionManager.updateState`. -/
def updateState (sessions : Sessions) (sessionId : String) (state : SessionState)
    (now : Nat) : Sessions :=
  match JsMap.get sessions sessionId with
  | none => sessions
  | some info => JsMap.set sessions sessionId { info with state := state, lastActivityAt := now }

/-- `SessionManager.updateActivity`. -/
def updateActivity (sessions : Sessions) (sessionId : String) (now : Nat) : Sessions :=
  match JsMap.get sessions sessionId with
  | none => sessions
  | some info => JsMap.set sessions sessionId { info with lastActivityAt := now }

end SessionManager

/-! ## Breakpoint manager (src/dap/managers/breakpointManager.ts) -/

/-- The `BreakpointManager`'s only state: `breakpointIdCounter`. -/
structure BreakpointManager where
  breakpointIdCounter : Nat
  deriving DecidableEq, Repr

namespace BreakpointManager

/-- `generateId`: `++this.breakpointIdCounter` (returns the incremented value). -/
def generateId (m : BreakpointManager) : Nat × BreakpointManager :=
  (m.breakpointIdCounter + 1, { breakpointIdCounter := m.breakpointIdCounter + 1 })

/-- `createBreakpoint`. -/
def createBreakpoint (m : BreakpointManager) (source : String) (line : Nat)
    (condition : Option String) (now : Nat) : BreakpointInfo × BreakpointManager :=
  let (id, m) := m.generateId
  ({ id := id, source := source, line := line, condition := condition,
     hitCount := 0, verified := false, createdAt := now }, m)

/-- `addBreakpointToSession`: create the source's array when absent, then push. -/
def addBreakpointToSession (breakpoints : BreakpointStore) (source : String)
    (breakpoint : BreakpointInfo) : BreakpointStore :=
  let breakpoints :=
    if JsMap.has breakpoints source then breakpoints
    else JsMap.set breakpoints source []
  match JsMap.get breakpoints source with
  | some l => JsMap.set breakpoints source (l ++ [breakpoint])
  | none => breakpoints

/-- `incrementHitCount`. -/
def incrementHitCount (breakpoint : BreakpointInfo) : BreakpointInfo :=
  { breakpoint with hitCount := breakpoint.hitCount + 1 }

/-- `verifyBreakpoint`. -/
def verifyBreakpoint (breakpoint : BreakpointInfo) : BreakpointInfo :=
  { breakpoint with verified := true }

end BreakpointManager

/-! ## Breakpoint tool (src/dap/tools/breakpointTools.ts, setBreakpointsTool) -/

/-- The optional-chained index `args.conditions?.[index]`. -/
def condAt (conditions : Option (List String)) (i : Nat) : Option String :=
  match conditions with
  | none => none
  | some cs => cs.get? i

/-- The `args.lines.map((line, index) => ...)` creation loop of
`setBreakpointsTool.execute`: create a breakpoint per line (fresh id,
unverified, zero hits) and push it into the session's store. Returns the
mutated manager, store, and the `newBreakpoints` array. -/
def createAndAdd (m : BreakpointManager) (store : BreakpointStore) (source : String)
    (lines : List Nat) (conditions : Option (List String)) (now : Nat) (index : Nat) :
    BreakpointManager × BreakpointStore × List BreakpointInfo :=
  match lines with
  | [] => (m, store, [])
  | line :: rest =>
      let condition := condAt conditions index
      let (bp, m) := m.createBreakpoint source line condition now
      let store := BreakpointManager.addBreakpointToSession store source bp
      let (m, store, bps) := createAndAdd m store source rest conditions now (index + 1)
      (m, store, bp :: bps)

/-- The verification fold of `setBreakpointsTool.execute` /
`setBreakpointTool.execute`:
`for (i = 0; i < response.breakpoints.length; i++) if (response.breakpoints[i].verified) verifyBreakpoint(sourceBreakpoints[i])`.
The response is reduced to its positional `verified` flags. Accessing
`sourceBreakpoints[i]` out of bounds would throw in JS (`verified = true` on
`undefined`), modelled as `none`. -/
def applyVerification : List BreakpointInfo → List Bool → Option (List BreakpointInfo)
  | bps, [] => some bps
  | [], _ :: _ => none
  | bp :: bps, v :: vs =>
      (applyVerification bps vs).map
        (fun rest => (if v then BreakpointManager.verifyBreakpoint bp else bp) :: rest)

/-- `setBreakpointsTool.execute`. `respVerified` is the adapter's
`response.breakpoints` array reduced to its `verified` flags. Returns the tool
result (or thrown error), the updated session registry and breakpoint manager. -/
def setBreakpointsExec (sessions : Sessions) (m : BreakpointManager)
    (sessionId source : String) (lines : List Nat) (conditions : Option (List String))
    (respVerified : List Bool) (now : Nat) :
    Except String String × Sessions × BreakpointManager :=
  match SessionManager.validateAndGet sessions sessionId
      (some [SessionState.connected, SessionState.stopped, SessionState.running]) with
  | .error e => (.error e, sessions, m)
  | .ok info =>
      let store := JsMap.delete info.breakpoints source
      let (m, store, newBreakpoints) := createAndAdd m store source lines conditions now 0
      match JsMap.get store source with
      | none =>
          -- `sessionInfo.breakpoints.get(args.source)!` is undefined: `.map` throws
          (.error "TypeError: sourceBreakpoints is undefined", sessions, m)
      | some sourceBreakpoints =>
          match applyVerification sourceBreakpoints respVerified with
          | none =>
              (.error "TypeError: cannot verify missing breakpoint", sessions, m)
          | some verifiedBps =>
              let store := JsMap.set store source verifiedBps
              let sessions := JsMap.set sessions sessionId { info with breakpoints := store }
              let sessions := SessionManager.logDebugEvent sessions sessionId
                "breakpoints_set" source now
              let sessions := SessionManager.updateActivity sessions sessionId now
              (.ok ("Set " ++ toString newBreakpoints.length ++ " breakpoints in " ++ source),
               sessions, m)

/-! ## Watch manager (src/dap/managers/watchManager.ts) -/

/-- The `WatchManager`'s only state: `watchIdCounter`. -/
structure WatchManager where
  watchIdCounter : Nat
  deriving DecidableEq, Repr

namespace WatchManager

/-- `generateId`: `` `watch_${++this.watchIdCounter}` ``. -/
def generateId (w : WatchManager) : String × WatchManager :=
  ("watch_" ++ toString (w.watchIdCounter + 1), { watchIdCounter := w.watchIdCounter + 1 })

/-- `createWatch`. -/
def createWatch (w : WatchManager) (expression : String) : WatchExpression × WatchManager :=
  let (id, w) := w.generateId
  ({ id := id, expression := expression, value := none, type := none, error := none,
     lastEvaluated := none }, w)

/-- `evaluateWatch`: the session's `evaluate(expr, frameId, "watch")` round trip
is the oracle `evalFn`; a rejection is caught and recorded, never rethrown. -/
def evaluateWatch (evalFn : String → Option Nat → Except String String)
    (watch : WatchExpression) (frameId : Option Nat) (now : Nat) : WatchExpression :=
  match evalFn watch.expression frameId with
  | .ok result =>
      { watch with value := some result, error := none, lastEvaluated := some now }
  | .error msg =>
      { watch with value := none, error := some msg, lastEvaluated := some now }

/-- The body of `evaluateAllWatches`:
`for (const [id, watch] of watches) watches.set(id, await evaluateWatch(...))`,
iterating the entry sequence while writing back into the store. -/
def evalAllGo (evalFn : String → Option Nat → Except String String)
    (entries : List (String × WatchExpression)) (store : WatchStore)
    (frameId : Option Nat) (now : Nat) : WatchStore :=
  match entries with
  | [] => store
  | (id, watch) :: rest =>
      evalAllGo evalFn rest (JsMap.set store id (evaluateWatch evalFn watch frameId now))
        frameId now

/-- `evaluateAllWatches`. -/
def evaluateAllWatches (evalFn : String → Option Nat → Except String String)
    (watches : WatchStore) (frameId : Option Nat) (now : Nat) : WatchStore :=
  evalAllGo evalFn watches watches frameId now

/-- `addWatchToSession`. -/
def addWatchToSession (w : WatchManager) (watches : WatchStore) (expression : String) :
    WatchStore × WatchExpression × WatchManager :=
  let (watch, w) := w.createWatch expression
  (JsMap.set watches watch.id watch, watch, w)

/-- `getWatchById`. -/
def getWatchById (watches : WatchStore) (watchId : String) : Option WatchExpression :=
  JsMap.get watches watchId

/-- `updateWatchExpression`: on a known id, overwrite the expression text and
clear value, error and timestamp in the same mutation; `none` models the
`undefined` return for an unknown id. -/
def updateWatchExpression (watches : WatchStore) (watchId newExpression : String) :
    Option (WatchStore × WatchExpression) :=
  match JsMap.get watches watchId with
  | none => none
  | some watch =>
      let watch := { watch with
        expression := newExpression
        value := none
        error := none
        lastEvaluated := none }
      some (JsMap.set watches watchId watch, watch)

end WatchManager

/-! ## Watch tool (src/dap/tools/watchTools.ts, updateWatchTool) -/

/-- `updateWatchTool.execute`. `evalFn` is the session's `evaluate` round trip. -/
def updateWatchExec (sessions : Sessions)
    (evalFn : String → Option Nat → Except String String)
    (sessionId watchId expression : String) (evaluate : Bool) (now : Nat) :
    Except String String × Sessions :=
  match SessionManager.validateAndGet sessions sessionId none with
  | .error e => (.error e, sessions)
  | .ok info =>
      match info.watches with
      | none => (.ok "No watches exist for this session", sessions)
      | some watches =>
          match WatchManager.getWatchById watches watchId with
          | none => (.ok ("Watch " ++ watchId ++ " not found"), sessions)
          | some _oldWatch =>
              match WatchManager.updateWatchExpression watches watchId expression with
              | none => (.ok ("Failed to update watch: " ++ watchId), sessions)
              | some (watches, updated) =>
                  let watches :=
                    if evaluate ∧ info.state = SessionState.stopped then
                      JsMap.set watches updated.id
                        (WatchManager.evaluateWatch evalFn updated none now)
                    else watches
                  let sessions := JsMap.set sessions sessionId
                    { info with watches := some watches }
                  let sessions := SessionManager.logDebugEvent sessions sessionId
                    "watch_updated" expression now
                  let sessions := SessionManager.updateActivity sessions sessionId now
                  (.ok ("Updated watch: " ++ watchId), sessions)

/-! ## Execution tools (src/dap/tools/executionTools.ts) -/

/-- A request written to the adapter's wire by one of the thread-cursor
operations of `DebugSession` (continue/next/stepIn/stepOut/pause). -/
structure DapRequest where
  command : String
  threadId : Nat
  deriving DecidableEq, Repr

/-- JS truthiness of an optional number: `0`, like `null`/`undefined`, is falsy. -/
def truthyNat : Option Nat → Option Nat
  | some 0 => none
  | some t => some t
  | none => none

/-- The shared body of `DebugSession.continue/stepOver/stepIn/stepOut/pause`:
`const tid = threadId || this.currentThreadId; if (!tid) throw new Error("No active thread");`
then one request on the wire. -/
def DebugSessionCore.sendThreadReq (s : DebugSessionCore) (command : String)
    (threadId : Option Nat) : Except String DapRequest :=
  match truthyNat threadId with
  | some t => .ok { command := command, threadId := t }
  | none =>
      match truthyNat s.currentThreadId with
      | some t => .ok { command := command, threadId := t }
      | none => .error "No active thread"

/-- `continueTool.execute`: requires `STOPPED`; on success sends `continue`,
moves the session to `RUNNING` and logs. The third component is the list of
wire requests the call produced. -/
def continueExec (sessions : Sessions) (sessionId : String) (threadId : Option Nat)
    (now : Nat) : Except String String × Sessions × List DapRequest :=
  match SessionManager.validateAndGet sessions sessionId (some [SessionState.stopped]) with
  | .error e => (.error e, sessions, [])
  | .ok info =>
      match info.session.sendThreadReq "continue" threadId with
      | .error e => (.error e, sessions, [])
      | .ok req =>
          let sessions := SessionManager.updateState sessions sessionId .running now
          let sessions := SessionManager.logDebugEvent sessions sessionId "continue" "" now
          (.ok "Execution continued", sessions, [req])

/-- `stepOverTool.execute`: requires `STOPPED`; sends `next`. -/
def stepOverExec (sessions : Sessions) (sessionId : String) (threadId : Option Nat)
    (now : Nat) : Except String String × Sessions × List DapRequest :=
  match SessionManager.validateAndGet sessions sessionId (some [SessionState.stopped]) with
  | .error e => (.error e, sessions, [])
  | .ok info =>
      match info.session.sendThreadReq "next" threadId with
      | .error e => (.error e, sessions, [])
      | .ok req =>
          let sessions := SessionManager.logDebugEvent sessions sessionId "step_over" "" now
          (.ok "Stepped to next line", sessions, [req])

/-- `stepIntoTool.execute`: requires `STOPPED`; sends `stepIn`. -/
def stepIntoExec (sessions : Sessions) (sessionId : String) (threadId : Option Nat)
    (now : Nat) : Except String String × Sessions × List DapRequest :=
  match SessionManager.validateAndGet sessions sessionId (some [SessionState.stopped]) with
  | .error e => (.error e, sessions, [])
  | .ok info =>
      match info.session.sendThreadReq "stepIn" threadId with
      | .error e => (.error e, sessions, [])
      | .ok req =>
          let sessions := SessionManager.logDebugEvent sessions sessionId "step_into" "" now
          (.ok "Stepped into function", sessions, [req])

/-- `stepOutTool.execute`: requires `STOPPED`; sends `stepOut`. -/
def stepOutExec (sessions : Sessions) (sessionId : String) (threadId : Option Nat)
    (now : Nat) : Except String String × Sessions × List DapRequest :=
  match SessionManager.validateAndGet sessions sessionId (some [SessionState.stopped]) with
  | .error e => (.error e, sessions, [])
  | .ok info =>
      match info.session.sendThreadReq "stepOut" threadId with
      | .error e => (.error e, sessions, [])
      | .ok req =>
          let sessions := SessionManager.logDebugEvent sessions sessionId "step_out" "" now
          (.ok "Stepped out of function", sessions, [req])

/-- `pauseTool.execute`: requires `RUNNING`; on success sends `pause` and moves
the session to `STOPPED`. -/
def pauseExec (sessions : Sessions) (sessionId : String) (threadId : Option Nat)
    (now : Nat) : Except String String × Sessions × List DapRequest :=
  match SessionManager.validateAndGet sessions sessionId (some [SessionState.running]) with
  | .error e => (.error e, sessions, [])
  | .ok info =>
      match info.session.sendThreadReq "pause" threadId with
      | .error e => (.error e, sessions, [])
      | .ok req =>
          let sessions := SessionManager.updateState sessions sessionId .stopped now
          let sessions := SessionManager.logDebugEvent sessions sessionId "pause" "" now
          (.ok "Execution paused", sessions, [req])

/-! ## Stopped-event handling (src/dap/tools/sessionTools.ts,
`setupSessionEventHandlers`) and the value tracker
(src/dap/managers/valueTracker.ts) -/

/-- A DAP stack frame as used by the stopped listener. -/
structure StackFrame where
  id : Nat
  name : String
  line : Nat
  deriving DecidableEq, Repr

/-- A DAP scope as used by the stopped listener. -/
structure Scope where
  name : String
  variablesReference : Nat
  deriving DecidableEq, Repr

/-- A DAP variable as used by the stopped listener. -/
structure Variable where
  name : String
  value : String
  deriving DecidableEq, Repr

/-- The body of a DAP `stopped` event. -/
structure StoppedEvent where
  reason : String
  threadId : Option Nat
  hitBreakpointIds : Option (List Nat)
  deriving DecidableEq, Repr

/-- Oracles for the adapter round trips made inside the stopped listener. -/
structure AdapterCalls where
  getStackTrace : Nat → Except String (List StackFrame)
  getScopes : Nat → Except String (List Scope)
  getVariables : Nat → Except String (List Variable)

/-- The `ValueTracker.valueHistory` map: key to list of
(timestamp, value, label) entries. -/
abbrev ValueTracker := JsMap String (List (Nat × String × Option String))

namespace ValueTracker

/-- `ValueTracker.trackValue`: create the key's history on first use, push. -/
def trackValue (t : ValueTracker) (key value : String) (label : Option String)
    (now : Nat) : ValueTracker :=
  let t := if JsMap.has t key then t else JsMap.set t key []
  match JsMap.get t key with
  | some l => JsMap.set t key (l ++ [(now, value, label)])
  | none => t

end ValueTracker

/-- The per-scope loop of the stopped listener: for each `Local`/`Arguments`
scope fetch its variables and track each value. A rejected `getVariables` is
an exception that aborts the remaining iterations and is swallowed by the
listener's `catch`; values tracked before it are kept. -/
def trackScopes (oracle : AdapterCalls) (frameName lineLabel : String)
    (scopes : List Scope) (tracker : ValueTracker) (now : Nat) : ValueTracker :=
  match scopes with
  | [] => tracker
  | scope :: rest =>
      if scope.name = "Local" ∨ scope.name = "Arguments" then
        match oracle.getVariables scope.variablesReference with
        | .error _ => tracker
        | .ok vars =>
            let tracker := vars.foldl
              (fun tr v =>
                ValueTracker.trackValue tr (frameName ++ ":" ++ v.name) v.value
                  (some lineLabel) now)
              tracker
            trackScopes oracle frameName lineLabel rest tracker now
      else trackScopes oracle frameName lineLabel rest tracker now

/-- The `session.on("stopped", ...)` listener installed by
`setupSessionEventHandlers`: set the session's state to `STOPPED`, refresh the
activity timestamp, log the event, then (when the event carries a truthy
thread id) walk top-frame scopes and track variable values. The listener is
the modelled consumer of the event; note it never touches
`sessionInfo.breakpoints`. Errors of the tracking block are caught and only
logged to stderr. -/
def onStopped (info : SessionInfo) (sessionId : String) (event : StoppedEvent)
    (oracle : AdapterCalls) (tracker : ValueTracker) (now : Nat) :
    SessionInfo × ValueTracker :=
  let info := { info with state := SessionState.stopped, lastActivityAt := now }
  let info := { info with events := info.events ++
      [{ timestamp := now, sessionId := sessionId, type := "stopped",
         data := event.reason }] }
  match truthyNat event.threadId with
  | none => (info, tracker)
  | some tid =>
      match oracle.getStackTrace tid with
      | .error _ => (info, tracker)
      | .ok [] => (info, tracker)
      | .ok (frame :: _) =>
          match oracle.getScopes frame.id with
          | .error _ => (info, tracker)
          | .ok scopes =>
              (info,
               trackScopes oracle frame.name
                 (event.reason ++ " at line " ++ toString frame.line) scopes tracker now)

/-! ## Session launch/attach tools (src/dap/tools/sessionTools.ts) -/

/-- The log-file path built by the launch/attach tools when logging is enabled
(`path.join(cwd, ".dap-debug-logs", ...)`; the cwd prefix and the ISO
timestamp string are taken as given). -/
def logFileName (sessionId timestamp : String) : String :=
  ".dap-debug-logs/debug-" ++ sessionId ++ "-" ++ timestamp ++ ".jsonl"

/-- Append a `DebugEvent` to a session record (the object-level effect of
`logDebugEvent` on the one shared `SessionInfo`). -/
def SessionInfo.logEvent (info : SessionInfo) (sessionId type data : String)
    (now : Nat) : SessionInfo :=
  { info with events := info.events ++
      [{ timestamp := now, sessionId := sessionId, type := type, data := data }] }

/-- `launchDebugSessionTool.execute`. `connect` and `launch` are the two
adapter round trips, each either resolving or rejecting with an error text. -/
def launchExec (sessions : Sessions) (sessionId adapter program : String)
    (stopOnEntry enableLogging : Bool) (connect launch : Except String Unit)
    (ts : String) (now : Nat) : Except String String × Sessions :=
  match SessionManager.ensureNotExists sessions sessionId with
  | .error e => (.error e, sessions)
  | .ok sessions =>
      let logFile := if enableLogging then some (logFileName sessionId ts) else none
      let info : SessionInfo :=
        { session := { currentThreadId := none, currentFrameId := none }
          state := SessionState.connecting
          createdAt := now
          lastActivityAt := now
          program := some program
          adapter := adapter
          breakpoints := []
          events := []
          logFile := logFile
          watches := none
          sourceMapEnabled := none }
      let sessions := JsMap.set sessions sessionId info
      -- setupSessionEventHandlers: listener registration, no registry effect
      match connect with
      | .error e =>
          -- catch: state := ERROR, log the error event, delete the entry, rethrow
          let info := { info with state := SessionState.error }
          let info := info.logEvent sessionId "error" e now
          let sessions := JsMap.set sessions sessionId info
          let sessions := JsMap.delete sessions sessionId
          (.error e, sessions)
      | .ok _ =>
          let info := { info with state := SessionState.connected }
          let info := info.logEvent sessionId "connected" adapter now
          let sessions := JsMap.set sessions sessionId info
          match launch with
          | .error e =>
              let info := { info with state := SessionState.error }
              let info := info.logEvent sessionId "error" e now
              let sessions := JsMap.set sessions sessionId info
              let sessions := JsMap.delete sessions sessionId
              (.error e, sessions)
          | .ok _ =>
              let info := if stopOnEntry then info
                else { info with state := SessionState.running }
              let info := info.logEvent sessionId "launched" program now
              let sessions := JsMap.set sessions sessionId info
              (.ok ("Debug session " ++ sessionId ++ " launched for " ++ program
                ++ " (state: " ++ info.state.toText ++ ")"), sessions)

/-- `attachDebugSessionTool.execute`. `connect` and `attach` are the two
adapter round trips. -/
def attachExec (sessions : Sessions) (sessionId adapter : String)
    (enableLogging : Bool) (connect attach : Except String Unit)
    (ts : String) (now : Nat) : Except String String × Sessions :=
  match SessionManager.ensureNotExists sessions sessionId with
  | .error e => (.error e, sessions)
  | .ok sessions =>
      let logFile := if enableLogging then some (logFileName sessionId ts) else none
      let info : SessionInfo :=
        { session := { currentThreadId := none, currentFrameId := none }
          state := SessionState.connecting
          createdAt := now
          lastActivityAt := now
          program := none
          adapter := adapter
          breakpoints := []
          events := []
          logFile := logFile
          watches := none
          sourceMapEnabled := none }
      let sessions := JsMap.set sessions sessionId info
      match connect with
      | .error e =>
          let info := { info with state := SessionState.error }
          let info := info.logEvent sessionId "error" e now
          let sessions := JsMap.set sessions sessionId info
          let sessions := JsMap.delete sessions sessionId
          (.error e, sessions)
      | .ok _ =>
          let info := { info with state := SessionState.connected }
          let info := info.logEvent sessionId "connected" adapter now
          let sessions := JsMap.set sessions sessionId info
          match attach with
          | .error e =>
              let info := { info with state := SessionState.error }
              let info := info.logEvent sessionId "error" e now
              let sessions := JsMap.set sessions sessionId info
              let sessions := JsMap.delete sessions sessionId
              (.error e, sessions)
          | .ok _ =>
              let info := { info with state := SessionState.running }
              let info := info.logEvent sessionId "attached" "" now
              let sessions := JsMap.set sessions sessionId info
              (.ok ("Debug session " ++ sessionId ++ " attached (state: "
                ++ info.state.toText ++ ")"), sessions)

/-! ## Source map manager (src/dap/managers/sourceMapManager.ts,
`resolveDebugPath`). Paths are modelled as character lists; `fs.existsSync`
is an oracle on paths. -/

/-- The characters of `".ts"`. -/
def tsExt : List Char := ['.', 't', 's']

/-- The characters of `".tsx"`. -/
def tsxExt : List Char := ['.', 't', 's', 'x']

/-- The characters of `".js"`. -/
def jsExt : List Char := ['.', 'j', 's']

/-- JS `String.prototype.endsWith`. -/
def endsWithSeq (l suffixSeq : List Char) : Bool :=
  l.drop (l.length - suffixSeq.length) = suffixSeq

/-- `sourcePath.replace(/\.tsx?$/, ".js")`: the anchored regex's leftmost match
is exactly the trailing `.ts`/`.tsx` extension, replaced once. -/
def replaceTsExtWithJs (p : List Char) : List Char :=
  if endsWithSeq p tsxExt then p.take (p.length - 4) ++ jsExt
  else if endsWithSeq p tsExt then p.take (p.length - 3) ++ jsExt
  else p

/-- `SourceMapManager.resolveDebugPath`. -/
def resolveDebugPath (enabled : Bool) (existsSync : List Char → Bool)
    (sourcePath : List Char) : List Char :=
  if !enabled then sourcePath
  else if endsWithSeq sourcePath tsExt || endsWithSeq sourcePath tsxExt then
    let jsPath := replaceTsExtWithJs sourcePath
    if existsSync jsPath then jsPath else sourcePath
  else sourcePath

/-! ## Content-Length framer (src/dap/debug-adapter.ts, the
`process.stdin.on("data")` buffering loop). The byte stream is modelled as a
character list (the loop runs on a UTF-8-decoded JS string; Content-Length
equals the body's length in the model's units, as it does for the ASCII JSON
bodies the protocol exchanges). -/

/-- The characters of the header prefix `"Content-Length: "`. -/
def clLit : List Char :=
  ['C', 'o', 'n', 't', 'e', 'n', 't', '-', 'L', 'e', 'n', 'g', 't', 'h', ':', ' ']

/-- The header terminator `"\r\n\r\n"`. -/
def crlf2 : List Char := ['\r', '\n', '\r', '\n']

/-- Decimal digit to character. -/
def digitChar (d : Nat) : Char :=
  match d with
  | 0 => '0' | 1 => '1' | 2 => '2' | 3 => '3' | 4 => '4'
  | 5 => '5' | 6 => '6' | 7 => '7' | 8 => '8' | 9 => '9'
  | _ => '*'

/-- Little-endian decimal digits of `n`; the fuel argument (any bound on `n`)
makes the division recursion structural. -/
def decDigitsAux : Nat → Nat → List Nat
  | 0, _ => []
  | _ + 1, 0 => []
  | fuel + 1, n + 1 => ((n + 1) % 10) :: decDigitsAux fuel ((n + 1) / 10)

/-- Canonical decimal rendering of a number (JS `${n}`). -/
def decRepr (n : Nat) : List Char :=
  if n = 0 then ['0'] else (decDigitsAux n n).reverse.map digitChar

/-- Numeric value of a digit character (as `parseInt` reads it). -/
def digitVal (c : Char) : Nat := c.toNat - 48

/-- JS `parseInt` on a string of decimal digits. -/
def parseDec (ds : List Char) : Nat :=
  ds.foldl (fun acc c => acc * 10 + digitVal c) 0

/-- Sequence-at-start test (the primitive under `indexOf` and the regex scan). -/
def isPrefixSeq : List Char → List Char → Bool
  | [], _ => true
  | _ :: _, [] => false
  | p :: ps, c :: cs => p = c && isPrefixSeq ps cs

/-- JS `buffer.indexOf(pat)`: index of the leftmost occurrence (`none` for -1). -/
def firstIndexOfSeq (pat : List Char) : List Char → Option Nat
  | [] => if isPrefixSeq pat [] then some 0 else none
  | c :: t =>
      if isPrefixSeq pat (c :: t) then some 0
      else (firstIndexOfSeq pat (t)).map (· + 1)

/-- `header.match(/Content-Length: (\d+)/)`: scan left to right for the literal
followed by at least one digit; capture the maximal digit run. -/
def clCapture : List Char → Option (List Char)
  | [] => none
  | c :: t =>
      if isPrefixSeq clLit (c :: t) then
        let ds := ((c :: t).drop clLit.length).takeWhile Char.isDigit
        if ds.isEmpty then clCapture t else some ds
      else clCapture t

/-- One pass of the framing loop body: find the header terminator, read the
Content-Length from the header, and if the whole body is buffered, split off
one message; `none` is the loop's `break` (incomplete data or missing
Content-Length). -/
def extractOne (buffer : List Char) : Option (List Char × List Char) :=
  match firstIndexOfSeq crlf2 buffer with
  | none => none
  | some headerEnd =>
      let header := buffer.take headerEnd
      match clCapture header with
      | none => none
      | some ds =>
          let contentLength := parseDec ds
          let messageStart := headerEnd + 4
          if buffer.length < messageStart + contentLength then none
          else some ((buffer.drop messageStart).take contentLength,
                     buffer.drop (messageStart + contentLength))

/-- The `while (true)` extraction loop: keep splitting complete messages off
the front of the buffer until `extractOne` breaks. `fuel` bounds the
iterations; each iteration consumes at least the four terminator characters,
so `buffer.length` iterations provably suffice. -/
def extractLoop : Nat → List Char → List (List Char) × List Char
  | 0, buffer => ([], buffer)
  | fuel + 1, buffer =>
      match extractOne buffer with
      | none => ([], buffer)
      | some (message, rest) =>
          let (messages, final) := extractLoop fuel rest
          (message :: messages, final)

/-- One `data` event: append the chunk to the buffer, run the extraction loop,
emit the extracted messages (via `handleRequest`) and keep the remainder
buffered. -/
def feedChunk (st : List (List Char) × List Char) (chunk : List Char) :
    List (List Char) × List Char :=
  let buffer := st.2 ++ chunk
  let (messages, rest) := extractLoop buffer.length buffer
  (st.1 ++ messages, rest)

/-- Process a sequence of reads from an initially empty buffer; returns all
emitted messages and the final buffered remainder. -/
def processChunks (chunks : List (List Char)) : List (List Char) × List Char :=
  chunks.foldl feedChunk ([], [])

/-- The peer's framing (`sendMessage`):
`"Content-Length: " + length + "\r\n\r\n" + body`. -/
def frameMsg (m : List Char) : List Char :=
  clLit ++ decRepr m.length ++ crlf2 ++ m

/-! ## Concrete sample states used to instantiate the theorems -/

/-- A sample registered breakpoint (id 1 at main.js:4, verified, never hit). -/
def bpSample : BreakpointInfo :=
  { id := 1, source := "main.js", line := 4, condition := none, hitCount := 0,
    verified := true, createdAt := 0 }

/-- A sample running session holding `bpSample`. -/
def infoSample : SessionInfo :=
  { session := { currentThreadId := some 1, currentFrameId := none }
    state := SessionState.running
    createdAt := 0
    lastActivityAt := 0
    program := some "main.js"
    adapter := "node"
    breakpoints := [("main.js", [bpSample])]
    events := []
    logFile := none
    watches := none
    sourceMapEnabled := none }

/-- A sample terminated session. -/
def infoTerminated : SessionInfo :=
  { infoSample with state := SessionState.terminated }

/-- An adapter oracle whose every round trip rejects. -/
def oracleErr : AdapterCalls :=
  { getStackTrace := fun _ => .error "unavailable"
    getScopes := fun _ => .error "unavailable"
    getVariables := fun _ => .error "unavailable" }

/-- A sample watch whose expression evaluates successfully under
`evalFnSample`. -/
def wGood : WatchExpression :=
  { id := "watch_2", expression := "x", value := none, type := none,
    error := some "old error", lastEvaluated := some 1 }

/-- A sample watch whose expression fails to evaluate under `evalFnSample`. -/
def wBad : WatchExpression :=
  { id := "watch_1", expression := "bad", value := some "stale", type := none,
    error := none, lastEvaluated := some 1 }

/-- A sample `session.evaluate` oracle: `x` evaluates to `42`, everything else
rejects. -/
def evalFnSample : String → Option Nat → Except String String :=
  fun e _ => if e = "x" then .ok "42" else .error "boom"

/-- A sample stopped session holding the two sample watches. -/
def infoWithWatches : SessionInfo :=
  { infoSample with
    state := SessionState.stopped
    watches := some [("watch_1", wBad), ("watch_2", wGood)] }

/-! ## Helper lemmas: the JS Map model -/

namespace JsMap

variable {α β : Type} [DecidableEq α]

@[simp] theorem get_nil (k : α) : get ([] : JsMap α β) k = none := rfl

@[simp] theorem get_set_self (m : JsMap α β) (k : α) (v : β) :
    get (set m k v) k = some v := by
  induction m with
  | nil => simp [get, set]
  | cons hd tl ih =>
    obtain ⟨a, b⟩ := hd
    by_cases h : a = k <;> simp [get, set, h, ih]

@[simp] theorem get_set_ne (m : JsMap α β) (k j : α) (v : β) (h : j ≠ k) :
    get (set m j v) k = get m k := by
  induction m with
  | nil => simp [get, set, h]
  | cons hd tl ih =>
    obtain ⟨a, b⟩ := hd
    by_cases ha : a = j
    · subst ha; simp [get, set, h, ih]
    · by_cases hk : a = k
      · subst hk; simp [get, set, ha]
      · simp [get, set, ha, hk, ih]

@[simp] theorem get_delete (m : JsMap α β) (k j : α) :
    get (delete m j) k = if j = k then none else get m k := by
  induction m with
  | nil => simp [get, delete]
  | cons hd tl ih =>
    obtain ⟨a, b⟩ := hd
    by_cases ha : a = j
    · subst ha
      by_cases hk : a = k
      · subst hk; simpa [delete] using ih
      · simp [delete, get, hk, ih]
    · by_cases hk : a = k
      · subst hk; simp [delete, get, ha, Ne.symm ha]
      · simp [delete, get, ha, hk, ih]

end JsMap

/-! ## Helper lemmas: path suffixes for `resolveDebugPath` -/

theorem endsWithSeq_iff (l s : List Char) :
    endsWithSeq l s = true ↔ ∃ t, l = t ++ s := by
  constructor
  · intro h
    refine ⟨l.take (l.length - s.length), ?_⟩
    conv_lhs => rw [← List.take_append_drop (l.length - s.length) l]
    simp only [endsWithSeq, decide_eq_true_eq] at h
    rw [h]
  · rintro ⟨t, rfl⟩
    simp only [endsWithSeq, List.length_append, decide_eq_true_eq]
    have : t.length + s.length - s.length = t.length := by omega
    rw [this, List.drop_left]

theorem ts_not_tsx (stem : List Char) :
    endsWithSeq (stem ++ tsExt) tsxExt = false := by
  rw [Bool.eq_false_iff]
  intro h
  obtain ⟨t, ht⟩ := (endsWithSeq_iff _ _).mp h
  have h2 := congrArg List.reverse ht
  simp [tsExt, tsxExt] at h2

theorem replaceTs_on_ts (stem : List Char) :
    replaceTsExtWithJs (stem ++ tsExt) = stem ++ jsExt := by
  have hts : endsWithSeq (stem ++ tsExt) tsExt = true :=
    (endsWithSeq_iff _ _).mpr ⟨stem, rfl⟩
  have harith : (stem ++ tsExt).length - 3 = stem.length := by
    simp [tsExt]
  simp only [replaceTsExtWithJs, ts_not_tsx, hts, if_true, if_false,
    Bool.false_eq_true, harith]
  exact congrArg (· ++ jsExt) (List.take_left stem tsExt)

theorem replaceTs_on_tsx (stem : List Char) :
    replaceTsExtWithJs (stem ++ tsxExt) = stem ++ jsExt := by
  have htsx : endsWithSeq (stem ++ tsxExt) tsxExt = true :=
    (endsWithSeq_iff _ _).mpr ⟨stem, rfl⟩
  have harith : (stem ++ tsxExt).length - 4 = stem.length := by
    simp [tsxExt]
  simp only [replaceTsExtWithJs, htsx, if_true, harith]
  exact congrArg (· ++ jsExt) (List.take_left stem tsxExt)

/-- C8: `resolveDebugPath` returns the sibling path with the `.ts`/`.tsx`
extension replaced by `.js` exactly when support is enabled, the input ends in
`.ts` or `.tsx`, and that `.js` sibling exists on disk; for every other input
(support disabled, a non-TypeScript path, or a missing `.js` sibling) it
returns the input unchanged. -/
theorem resolveDebugPath_spec (enabled : Bool) (ex : List Char → Bool)
    (p : List Char) :
    (enabled = false → resolveDebugPath enabled ex p = p) ∧
    (∀ stem, p = stem ++ tsExt →
      resolveDebugPath true ex p =
        if ex (stem ++ jsExt) then stem ++ jsExt else p) ∧
    (∀ stem, p = stem ++ tsxExt →
      resolveDebugPath true ex p =
        if ex (stem ++ jsExt) then stem ++ jsExt else p) ∧
    ((∀ stem, p ≠ stem ++ tsExt) → (∀ stem, p ≠ stem ++ tsxExt) →
      resolveDebugPath enabled ex p = p) := by
  refine ⟨?_, ?_, ?_, ?_⟩
  · intro h; subst h; simp [resolveDebugPath]
  · rintro stem rfl
    have hts : endsWithSeq (stem ++ tsExt) tsExt = true :=
      (endsWithSeq_iff _ _).mpr ⟨stem, rfl⟩
    simp only [resolveDebugPath, Bool.not_true, Bool.false_eq_true, if_false,
      hts, Bool.true_or, if_true, replaceTs_on_ts]
  · rintro stem rfl
    have htsx : endsWithSeq (stem ++ tsxExt) tsxExt = true :=
      (endsWithSeq_iff _ _).mpr ⟨stem, rfl⟩
    simp only [resolveDebugPath, Bool.not_true, Bool.false_eq_true, if_false,
      htsx, Bool.or_true, if_true, replaceTs_on_tsx]
  · intro h1 h2
    have hts : endsWithSeq p tsExt = false := by
      rw [Bool.eq_false_iff]
      intro h
      obtain ⟨t, ht⟩ := (endsWithSeq_iff _ _).mp h
      exact h1 t ht
    have htsx : endsWithSeq p tsxExt = false := by
      rw [Bool.eq_false_iff]
      intro h
      obtain ⟨t, ht⟩ := (endsWithSeq_iff _ _).mp h
      exact h2 t ht
    cases enabled <;> simp [resolveDebugPath, hts, htsx]

/-- Witness for C8 at a concrete input: with support enabled and an existing
sibling, `a.ts` resolves to `a.js`. -/
theorem resolveDebugPath_spec_witness :
    resolveDebugPath true (fun _ => true) (['a'] ++ tsExt) = ['a'] ++ jsExt := by
  have h := (resolveDebugPath_spec true (fun _ => true) (['a'] ++ tsExt)).2.1 ['a'] rfl
  simpa using h

/-- C9: the verification fold matches the adapter's positional response 1:1
against the stored per-source list. When the response is no longer than the
list that was sent, every index access is in bounds (the fold returns `some`),
the list keeps its length, and entry `i` is verified exactly when it already
was or its positional response entry says `verified:true`; a `verified:false`
response entry never un-verifies an entry. -/
theorem applyVerification_spec (bps : List BreakpointInfo) (resp : List Bool)
    (h : resp.length ≤ bps.length) :
    ∃ out, applyVerification bps resp = some out ∧
      out.length = bps.length ∧
      (∀ i, out.getD i default =
        (if resp.getD i false then BreakpointManager.verifyBreakpoint (bps.getD i default)
         else bps.getD i default)) ∧
      (∀ i, (out.getD i default).verified
        = ((bps.getD i default).verified || resp.getD i false)) := by
  induction resp generalizing bps with
  | nil =>
    refine ⟨bps, by cases bps <;> rfl, rfl, ?_, ?_⟩ <;> intro i <;> simp
  | cons v vs ih =>
    match bps with
    | [] => simp at h
    | bp :: bps =>
      have hlen : vs.length ≤ bps.length := by simpa using h
      obtain ⟨out, hout, hlen2, hidx, hver⟩ := ih bps hlen
      refine ⟨(if v then BreakpointManager.verifyBreakpoint bp else bp) :: out, ?_, ?_, ?_, ?_⟩
      · simp [applyVerification, hout]
      · simpa using hlen2
      · intro i
        match i with
        | 0 => simp
        | i + 1 => simpa using hidx i
      · intro i
        match i with
        | 0 =>
          cases v <;> simp [BreakpointManager.verifyBreakpoint]
        | i + 1 => simpa using hver i

/-- Witness for C9 at a concrete input: a two-element store with a one-element
`verified:true` response verifies exactly the first entry. -/
theorem applyVerification_spec_witness :
    ∃ out, applyVerification [bpSample, bpSample] [true] = some out ∧
      out.length = ([bpSample, bpSample] : List BreakpointInfo).length ∧
      (∀ i, out.getD i default =
        (if [true].getD i false
         then BreakpointManager.verifyBreakpoint
           (([bpSample, bpSample] : List BreakpointInfo).getD i default)
         else ([bpSample, bpSample] : List BreakpointInfo).getD i default)) ∧
      (∀ i, (out.getD i default).verified
        = ((([bpSample, bpSample] : List BreakpointInfo).getD i default).verified
            || [true].getD i false)) :=
  applyVerification_spec [bpSample, bpSample] [true] (by decide)

/-! ## Helper lemmas: watch evaluation -/

theorem JsMap.get_mem {α β : Type} [DecidableEq α] (m : JsMap α β) (k : α) (v : β)
    (h : JsMap.get m k = some v) : (k, v) ∈ m := by
  induction m with
  | nil => simp [JsMap.get] at h
  | cons hd tl ih =>
    obtain ⟨a, b⟩ := hd
    by_cases ha : a = k
    · subst ha
      simp [JsMap.get] at h
      simp [h]
    · simp [JsMap.get, ha] at h
      exact List.mem_cons_of_mem _ (ih h)

theorem evalAllGo_get (evalFn : String → Option Nat → Except String String)
    (frameId : Option Nat) (now : Nat) :
    ∀ (entries : List (String × WatchExpression)) (store : WatchStore),
      (entries.map Prod.fst).Nodup →
      ((∀ id, id ∉ entries.map Prod.fst →
          JsMap.get (WatchManager.evalAllGo evalFn entries store frameId now) id
            = JsMap.get store id) ∧
       (∀ id w, (id, w) ∈ entries →
          JsMap.get (WatchManager.evalAllGo evalFn entries store frameId now) id
            = some (WatchManager.evaluateWatch evalFn w frameId now))) := by
  intro entries
  induction entries with
  | nil => intro store _; exact ⟨fun _ _ => rfl, fun _ _ h => by simp at h⟩
  | cons hd rest ih =>
    obtain ⟨k, w0⟩ := hd
    intro store hnd
    rw [List.map_cons, List.nodup_cons] at hnd
    obtain ⟨hk, hrest⟩ := hnd
    have ihs := ih (JsMap.set store k (WatchManager.evaluateWatch evalFn w0 frameId now)) hrest
    simp only [WatchManager.evalAllGo]
    constructor
    · intro id hid
      rw [List.map_cons, List.mem_cons] at hid
      push_neg at hid
      obtain ⟨hidk, hidr⟩ := hid
      rw [ihs.1 id hidr]
      exact JsMap.get_set_ne store id k _ (fun h => hidk (h.symm ▸ rfl))
    · intro id w hmem
      rw [List.mem_cons] at hmem
      cases hmem with
      | inl heq =>
        have h1 : id = k := congrArg Prod.fst heq
        have h2 : w = w0 := congrArg Prod.snd heq
        subst h1; subst h2
        rw [ihs.1 id hk]
        exact JsMap.get_set_self store id _
      | inr hmem => exact ihs.2 id w hmem

/-- C6: a successful evaluation sets the watch's value and clears its error, a
failed one sets the error and clears the value, both update the evaluated-at
timestamp; the failure is recorded in the watch record rather than thrown, so
`evaluateAllWatches` re-evaluates every entry of the store (keys of a JS map
are unique) regardless of any entry failing. -/
theorem watch_evaluation_spec (evalFn : String → Option Nat → Except String String)
    (frameId : Option Nat) (now : Nat) :
    (∀ w r, evalFn w.expression frameId = .ok r →
      WatchManager.evaluateWatch evalFn w frameId now =
        { w with value := some r, error := none, lastEvaluated := some now }) ∧
    (∀ w msg, evalFn w.expression frameId = .error msg →
      WatchManager.evaluateWatch evalFn w frameId now =
        { w with value := none, error := some msg, lastEvaluated := some now }) ∧
    (∀ (watches : WatchStore), (watches.map Prod.fst).Nodup →
      ∀ id w, JsMap.get watches id = some w →
        JsMap.get (WatchManager.evaluateAllWatches evalFn watches frameId now) id
          = some (WatchManager.evaluateWatch evalFn w frameId now)) := by
  refine ⟨?_, ?_, ?_⟩
  · intro w r h; simp [WatchManager.evaluateWatch, h]
  · intro w msg h; simp [WatchManager.evaluateWatch, h]
  · intro watches hnd id w hget
    exact (evalAllGo_get evalFn frameId now watches watches hnd).2 id w
      (JsMap.get_mem watches id w hget)

/-- Witness for C6 at a concrete input: in a two-watch store whose first
expression fails, `evaluateAllWatches` still evaluates the second watch, whose
success overwrites its old error. -/
theorem watch_evaluation_spec_witness :
    JsMap.get (WatchManager.evaluateAllWatches evalFnSample
        [("watch_1", wBad), ("watch_2", wGood)] none 9) "watch_2"
      = some (WatchManager.evaluateWatch evalFnSample wGood none 9) :=
  (watch_evaluation_spec evalFnSample none 9).2.2
    [("watch_1", wBad), ("watch_2", wGood)] (by decide) "watch_2" wGood (by decide)

/-- C5: updating a watch's expression text overwrites the text and clears the
stored value, error and evaluated-at timestamp in the same single store
mutation; through the update tool, the stored watch afterwards carries the new
expression together with either the cleared fields or a value/error produced
by evaluating the new expression — never state from the old expression. -/
theorem update_watch_clears_state (sessions : Sessions)
    (evalFn : String → Option Nat → Except String String)
    (sid wid expr : String) (evaluate : Bool) (now : Nat)
    (info : SessionInfo) (ws : WatchStore) (w : WatchExpression)
    (hs : JsMap.get sessions sid = some info)
    (hw : info.watches = some ws)
    (hg : JsMap.get ws wid = some w) :
    (WatchManager.updateWatchExpression ws wid expr =
      some (JsMap.set ws wid
              { w with expression := expr, value := none, error := none,
                       lastEvaluated := none },
            { w with expression := expr, value := none, error := none,
                     lastEvaluated := none })) ∧
    (∃ sessions2,
      updateWatchExec sessions evalFn sid wid expr evaluate now
        = (.ok ("Updated watch: " ++ wid), sessions2) ∧
      ∃ info2 ws2 w2,
        JsMap.get sessions2 sid = some info2 ∧
        info2.watches = some ws2 ∧
        JsMap.get ws2 wid = some w2 ∧
        w2.expression = expr ∧
        ((w2.value = none ∧ w2.error = none ∧ w2.lastEvaluated = none) ∨
          w2 = WatchManager.evaluateWatch evalFn
                { w with expression := expr, value := none, error := none,
                         lastEvaluated := none } none now)) := by
  have hval : SessionManager.validateAndGet sessions sid none = .ok info := by
    simp [SessionManager.validateAndGet, hs]
  refine ⟨by simp [WatchManager.updateWatchExpression, hg], ?_⟩
  have hchase : ∀ infoA : SessionInfo,
      JsMap.get (SessionManager.updateActivity (SessionManager.logDebugEvent
          (JsMap.set sessions sid infoA) sid "watch_updated" expr now) sid now) sid
        = some { infoA.logEvent sid "watch_updated" expr now with
                 lastActivityAt := now } := by
    intro infoA
    simp [SessionManager.logDebugEvent, SessionManager.updateActivity,
      SessionInfo.logEvent, JsMap.get_set_self]
  simp only [updateWatchExec, hval, hw, WatchManager.getWatchById, hg,
    WatchManager.updateWatchExpression]
  by_cases hcond : evaluate = true ∧ info.state = SessionState.stopped
  · rw [if_pos hcond]
    by_cases hid : w.id = wid
    · refine ⟨_, rfl, _, _,
        WatchManager.evaluateWatch evalFn
          { w with expression := expr, value := none, error := none,
                   lastEvaluated := none } none now,
        hchase _, rfl, ?_, ?_, Or.inr rfl⟩
      · rw [hid]
        exact JsMap.get_set_self _ _ _
      · simp only [WatchManager.evaluateWatch]
        cases evalFn expr none <;> rfl
    · refine ⟨_, rfl, _, _,
        { w with expression := expr, value := none, error := none,
                 lastEvaluated := none },
        hchase _, rfl, ?_, rfl, Or.inl ⟨rfl, rfl, rfl⟩⟩
      rw [JsMap.get_set_ne _ _ _ _ hid]
      exact JsMap.get_set_self _ _ _
  · rw [if_neg hcond]
    refine ⟨_, rfl, _, _,
      { w with expression := expr, value := none, error := none,
               lastEvaluated := none },
      hchase _, rfl, ?_, rfl, Or.inl ⟨rfl, rfl, rfl⟩⟩
    exact JsMap.get_set_self _ _ _

/-- Witness for C5 at a concrete input: updating `watch_1`'s expression to `z`
clears its stale value, error and timestamp in the one store mutation. -/
theorem update_watch_clears_state_witness :
    WatchManager.updateWatchExpression [("watch_1", wBad), ("watch_2", wGood)]
        "watch_1" "z"
      = some (JsMap.set [("watch_1", wBad), ("watch_2", wGood)] "watch_1"
                { wBad with expression := "z", value := none, error := none,
                            lastEvaluated := none },
              { wBad with expression := "z", value := none, error := none,
                          lastEvaluated := none }) :=
  (update_watch_clears_state [("s1", infoWithWatches)] evalFnSample "s1"
    "watch_1" "z" false 9 infoWithWatches [("watch_1", wBad), ("watch_2", wGood)]
    wBad (by decide) rfl (by decide)).1

/-- C3: an execution operation invoked on a session that is not in its
required state (continue and the steps require STOPPED, pause requires
RUNNING) fails synchronously with the state error, sends no request on the
wire, and leaves the whole session registry (breakpoints, watches, lifecycle
state included) unchanged. -/
theorem invalid_state_sends_no_request (sessions : Sessions) (sid : String)
    (info : SessionInfo) (tid : Option Nat) (now : Nat)
    (hs : JsMap.get sessions sid = some info) :
    (info.state ≠ SessionState.stopped →
      (∃ e, continueExec sessions sid tid now = (.error e, sessions, [])) ∧
      (∃ e, stepOverExec sessions sid tid now = (.error e, sessions, [])) ∧
      (∃ e, stepIntoExec sessions sid tid now = (.error e, sessions, [])) ∧
      (∃ e, stepOutExec sessions sid tid now = (.error e, sessions, []))) ∧
    (info.state ≠ SessionState.running →
      ∃ e, pauseExec sessions sid tid now = (.error e, sessions, [])) := by
  constructor
  · intro h
    have hc : ([SessionState.stopped] : List SessionState).contains info.state = false := by
      simp [List.contains, h]
    have hval : ∃ e, SessionManager.validateAndGet sessions sid
        (some [SessionState.stopped]) = .error e := by
      simp [SessionManager.validateAndGet, hs, hc, h]
    obtain ⟨e, hval⟩ := hval
    refine ⟨⟨e, ?_⟩, ⟨e, ?_⟩, ⟨e, ?_⟩, ⟨e, ?_⟩⟩ <;>
      simp only [continueExec, stepOverExec, stepIntoExec, stepOutExec, hval]
  · intro h
    have hc : ([SessionState.running] : List SessionState).contains info.state = false := by
      simp [List.contains, h]
    have hval : ∃ e, SessionManager.validateAndGet sessions sid
        (some [SessionState.running]) = .error e := by
      simp [SessionManager.validateAndGet, hs, hc, h]
    obtain ⟨e, hval⟩ := hval
    exact ⟨e, by simp only [pauseExec, hval]⟩

/-- Witness for C3 at concrete inputs: `continue` on a RUNNING session and
`pause` on a STOPPED session both fail without wire traffic or state change. -/
theorem invalid_state_sends_no_request_witness :
    (∃ e, continueExec [("s1", infoSample)] "s1" none 3
      = (.error e, [("s1", infoSample)], [])) ∧
    (∃ e, pauseExec [("s2", infoWithWatches)] "s2" none 3
      = (.error e, [("s2", infoWithWatches)], [])) :=
  ⟨((invalid_state_sends_no_request [("s1", infoSample)] "s1" infoSample none 3
      (by decide)).1 (by decide)).1,
   (invalid_state_sends_no_request [("s2", infoWithWatches)] "s2" infoWithWatches
      none 3 (by decide)).2 (by decide)⟩

/-- C4 (code bug): a stopped event whose `hitBreakpointIds` references the
session's registered breakpoint id 1 is processed by the stopped listener, yet
the breakpoint's hit count stays 0 (the claim and spec require it to become 1):
the listener never reads `hitBreakpointIds` and nothing in the repository ever
calls `BreakpointManager.incrementHitCount` outside its unit test, so the
breakpoint store is returned byte-for-byte unchanged. -/
theorem stopped_handler_never_increments_hit :
    bpSample.id = 1 ∧
    JsMap.get infoSample.breakpoints "main.js" = some [bpSample] ∧
    (onStopped infoSample "s1"
        { reason := "breakpoint", threadId := some 1, hitBreakpointIds := some [1] }
        oracleErr [] 7).1.breakpoints = infoSample.breakpoints ∧
    JsMap.get (onStopped infoSample "s1"
        { reason := "breakpoint", threadId := some 1, hitBreakpointIds := some [1] }
        oracleErr [] 7).1.breakpoints "main.js"
      = some [{ bpSample with hitCount := 0 }] ∧
    BreakpointManager.incrementHitCount bpSample = { bpSample with hitCount := 1 } ∧
    (∀ (info2 : SessionInfo) (sid2 : String) (ev : StoppedEvent)
        (oracle : AdapterCalls) (tr : ValueTracker) (n : Nat),
      (onStopped info2 sid2 ev oracle tr n).1.breakpoints = info2.breakpoints) := by
  refine ⟨rfl, rfl, rfl, rfl, rfl, ?_⟩
  intro info2 sid2 ev oracle tr n
  unfold onStopped
  repeat (first | rfl | split)

/-- C7: the registry never holds two live sessions under one id. A launch or
attach whose caller-chosen id is held by a live session (neither TERMINATED
nor ERROR) is rejected synchronously with the registry unchanged; when the
holder is terminated or errored the id is freed and a successful launch
re-registers it with a fresh session. -/
theorem no_duplicate_live_session_ids (sessions : Sessions) (sid : String)
    (info : SessionInfo) (hs : JsMap.get sessions sid = some info) :
    (info.state ≠ SessionState.terminated → info.state ≠ SessionState.error →
      ∀ (adapter program : String) (stopOnEntry enableLogging : Bool)
        (connect launch : Except String Unit) (ts : String) (now : Nat),
        launchExec sessions sid adapter program stopOnEntry enableLogging
            connect launch ts now
          = (.error ("Session " ++ sid ++ " already exists and is "
              ++ info.state.toText), sessions) ∧
        attachExec sessions sid adapter enableLogging connect launch ts now
          = (.error ("Session " ++ sid ++ " already exists and is "
              ++ info.state.toText), sessions)) ∧
    ((info.state = SessionState.terminated ∨ info.state = SessionState.error) →
      ∀ (adapter program : String) (stopOnEntry enableLogging : Bool)
        (ts : String) (now : Nat),
        ∃ msg sessions2,
          launchExec sessions sid adapter program stopOnEntry enableLogging
              (.ok ()) (.ok ()) ts now = (.ok msg, sessions2) ∧
          ∃ infoN, JsMap.get sessions2 sid = some infoN ∧
            infoN.createdAt = now) := by
  constructor
  · intro hterm herr adapter program stopOnEntry enableLogging connect launch ts now
    have hens : SessionManager.ensureNotExists sessions sid
        = .error ("Session " ++ sid ++ " already exists and is " ++ info.state.toText) := by
      simp [SessionManager.ensureNotExists, hs, hterm, herr]
    constructor <;> simp only [launchExec, attachExec, hens]
  · intro hstale adapter program stopOnEntry enableLogging ts now
    have hens : SessionManager.ensureNotExists sessions sid
        = .ok (JsMap.delete sessions sid) := by
      rcases hstale with h | h <;> simp [SessionManager.ensureNotExists, hs, h]
    cases stopOnEntry <;>
      (simp only [launchExec, hens]
       exact ⟨_, _, rfl, _, JsMap.get_set_self _ _ _, rfl⟩)

/-- Witness for C7 at concrete inputs: a launch over a live (RUNNING) holder
of `s1` is rejected with the registry unchanged, and a launch over a
TERMINATED holder succeeds and re-registers `s1`. -/
theorem no_duplicate_live_session_ids_witness :
    (launchExec [("s1", infoSample)] "s1" "node" "m.js" false false
        (.ok ()) (.ok ()) "t" 5
      = (.error "Session s1 already exists and is running", [("s1", infoSample)])) ∧
    (∃ msg sessions2,
      launchExec [("s1", infoTerminated)] "s1" "node" "m.js" false false
          (.ok ()) (.ok ()) "t" 5 = (.ok msg, sessions2) ∧
      ∃ infoN, JsMap.get sessions2 "s1" = some infoN ∧ infoN.createdAt = 5) :=
  ⟨((no_duplicate_live_session_ids [("s1", infoSample)] "s1" infoSample
      (by decide)).1 (by decide) (by decide) "node" "m.js" false false
      (.ok ()) (.ok ()) "t" 5).1,
   (no_duplicate_live_session_ids [("s1", infoTerminated)] "s1" infoTerminated
      (by decide)).2 (Or.inl rfl) "node" "m.js" false false "t" 5⟩

/-- C10: launching or attaching is atomic with respect to the registry: when
connect or launch/attach rejects after the provisional registration, the entry
is deleted before the error propagates, the id is not registered afterwards,
and `ensureNotExists` immediately accepts the id again. -/
theorem failed_launch_unregisters (sessions sessions0 : Sessions) (sid : String)
    (hens : SessionManager.ensureNotExists sessions sid = .ok sessions0) :
    (∀ (adapter program : String) (stopOnEntry enableLogging : Bool) (e : String)
        (launch : Except String Unit) (ts : String) (now : Nat),
      ∃ s2, launchExec sessions sid adapter program stopOnEntry enableLogging
          (.error e) launch ts now = (.error e, s2) ∧
        JsMap.get s2 sid = none ∧ SessionManager.ensureNotExists s2 sid = .ok s2) ∧
    (∀ (adapter program : String) (stopOnEntry enableLogging : Bool) (e : String)
        (ts : String) (now : Nat),
      ∃ s2, launchExec sessions sid adapter program stopOnEntry enableLogging
          (.ok ()) (.error e) ts now = (.error e, s2) ∧
        JsMap.get s2 sid = none ∧ SessionManager.ensureNotExists s2 sid = .ok s2) ∧
    (∀ (adapter : String) (enableLogging : Bool) (e : String)
        (ts : String) (now : Nat),
      ∃ s2, attachExec sessions sid adapter enableLogging (.error e) (.ok ()) ts now
          = (.error e, s2) ∧
        JsMap.get s2 sid = none ∧ SessionManager.ensureNotExists s2 sid = .ok s2) ∧
    (∀ (adapter : String) (enableLogging : Bool) (e : String)
        (ts : String) (now : Nat),
      ∃ s2, attachExec sessions sid adapter enableLogging (.ok ()) (.error e) ts now
          = (.error e, s2) ∧
        JsMap.get s2 sid = none ∧ SessionManager.ensureNotExists s2 sid = .ok s2) := by
  have hnone : ∀ (m : Sessions) (v : SessionInfo),
      JsMap.get (JsMap.delete (JsMap.set m sid v) sid) sid = none := by
    intro m v; simp
  have hok : ∀ (m : Sessions), JsMap.get m sid = none →
      SessionManager.ensureNotExists m sid = .ok m := by
    intro m hm; simp [SessionManager.ensureNotExists, hm]
  refine ⟨?_, ?_, ?_, ?_⟩
  · intro adapter program stopOnEntry enableLogging e launch ts now
    simp only [launchExec, hens]
    exact ⟨_, rfl, hnone _ _, hok _ (hnone _ _)⟩
  · intro adapter program stopOnEntry enableLogging e ts now
    simp only [launchExec, hens]
    exact ⟨_, rfl, hnone _ _, hok _ (hnone _ _)⟩
  · intro adapter enableLogging e ts now
    simp only [attachExec, hens]
    exact ⟨_, rfl, hnone _ _, hok _ (hnone _ _)⟩
  · intro adapter enableLogging e ts now
    simp only [attachExec, hens]
    exact ⟨_, rfl, hnone _ _, hok _ (hnone _ _)⟩

/-- Witness for C10 at a concrete input: a launch into an empty registry whose
connect round trip rejects leaves `s1` unregistered and immediately reusable. -/
theorem failed_launch_unregisters_witness :
    ∃ s2, launchExec [] "s1" "node" "m.js" false false
        (.error "spawn failed") (.ok ()) "t" 5 = (.error "spawn failed", s2) ∧
      JsMap.get s2 "s1" = none ∧ SessionManager.ensureNotExists s2 "s1" = .ok s2 :=
  (failed_launch_unregisters [] [] "s1" rfl).1 "node" "m.js" false false
    "spawn failed" (.ok ()) "t" 5

/-! ## Helper lemmas: breakpoint creation and verification -/

theorem addBreakpointToSession_get (store : BreakpointStore) (source : String)
    (bp : BreakpointInfo) :
    JsMap.get (BreakpointManager.addBreakpointToSession store source bp) source
      = some ((JsMap.get store source).getD [] ++ [bp]) := by
  unfold BreakpointManager.addBreakpointToSession
  cases hg : JsMap.get store source with
  | none =>
    simp [JsMap.has, hg, JsMap.get_set_self]
  | some l =>
    simp [JsMap.has, hg, JsMap.get_set_self]

theorem createAndAdd_spec (source : String) (conds : Option (List String)) (now : Nat) :
    ∀ (lines : List Nat) (m : BreakpointManager) (store : BreakpointStore) (idx : Nat)
      (mF : BreakpointManager) (storeF : BreakpointStore) (bps : List BreakpointInfo),
      createAndAdd m store source lines conds now idx = (mF, storeF, bps) →
      mF.breakpointIdCounter = m.breakpointIdCounter + lines.length ∧
      bps.map BreakpointInfo.line = lines ∧
      bps.map BreakpointInfo.id
        = List.range' (m.breakpointIdCounter + 1) lines.length ∧
      JsMap.get storeF source
        = (if lines.isEmpty then JsMap.get store source
           else some ((JsMap.get store source).getD [] ++ bps)) := by
  intro lines
  induction lines with
  | nil =>
    intro m store idx mF storeF bps h
    simp only [createAndAdd, Prod.mk.injEq] at h
    obtain ⟨h1, h2, h3⟩ := h
    subst h1; subst h2; subst h3
    simp
  | cons l rest ih =>
    intro m store idx mF storeF bps h
    simp only [createAndAdd, BreakpointManager.createBreakpoint,
      BreakpointManager.generateId] at h
    rcases hsplit : createAndAdd { breakpointIdCounter := m.breakpointIdCounter + 1 }
        (BreakpointManager.addBreakpointToSession store source
          { id := m.breakpointIdCounter + 1, source := source, line := l,
            condition := condAt conds idx, hitCount := 0, verified := false,
            createdAt := now })
        source rest conds now (idx + 1) with ⟨m2, store2, bps2⟩
    rw [hsplit] at h
    simp only [Prod.mk.injEq] at h
    obtain ⟨h1, h2, h3⟩ := h
    subst h1; subst h2; subst h3
    obtain ⟨ha, hb, hc, hd⟩ := ih _ _ _ _ _ _ hsplit
    refine ⟨?_, ?_, ?_, ?_⟩
    · simp [ha]; omega
    · simp [hb]
    · simp only [List.map_cons, hc, List.length_cons]
      rfl
    · rw [hd, addBreakpointToSession_get]
      cases hrest : rest with
      | nil =>
        have : bps2 = [] := by
          cases bps2 with
          | nil => rfl
          | cons x xs => rw [hrest] at hb; simp at hb
        subst this
        simp
      | cons r rs =>
        simp only [hrest, List.isEmpty_cons, if_false, Option.getD_some,
          List.isEmpty_nil, Bool.false_eq_true]
        rw [List.append_assoc]
        simp

theorem applyVerification_total (bps : List BreakpointInfo) (resp : List Bool)
    (h : resp.length ≤ bps.length) :
    ∃ out, applyVerification bps resp = some out ∧
      out.map BreakpointInfo.line = bps.map BreakpointInfo.line ∧
      out.map BreakpointInfo.id = bps.map BreakpointInfo.id := by
  induction resp generalizing bps with
  | nil => exact ⟨bps, by cases bps <;> rfl, rfl, rfl⟩
  | cons v vs ih =>
    match bps with
    | [] => simp at h
    | bp :: bps =>
      obtain ⟨out, hout, hline, hid⟩ := ih bps (by simpa using h)
      refine ⟨(if v then BreakpointManager.verifyBreakpoint bp else bp) :: out,
        by simp [applyVerification, hout], ?_, ?_⟩
      · simp only [List.map_cons, hline]
        cases v <;> rfl
      · simp only [List.map_cons, hid]
        cases v <;> rfl

theorem setBreakpointsExec_spec (sessions : Sessions) (m : BreakpointManager)
    (sid source : String) (lines : List Nat) (conds : Option (List String))
    (resp : List Bool) (now : Nat) (info : SessionInfo)
    (hs : JsMap.get sessions sid = some info)
    (hstate : info.state = SessionState.connected ∨ info.state = SessionState.stopped
      ∨ info.state = SessionState.running)
    (hne : lines ≠ [])
    (hresp : resp.length ≤ lines.length) :
    ∃ msg sessions2 m2 info2 out,
      setBreakpointsExec sessions m sid source lines conds resp now
        = (.ok msg, sessions2, m2) ∧
      m2.breakpointIdCounter = m.breakpointIdCounter + lines.length ∧
      JsMap.get sessions2 sid = some info2 ∧
      info2.state = info.state ∧
      JsMap.get info2.breakpoints source = some out ∧
      out.map BreakpointInfo.line = lines ∧
      out.map BreakpointInfo.id = List.range' (m.breakpointIdCounter + 1) lines.length := by
  have hval : SessionManager.validateAndGet sessions sid
      (some [SessionState.connected, SessionState.stopped, SessionState.running])
      = .ok info := by
    rcases hstate with h | h | h <;> simp [SessionManager.validateAndGet, hs, h]
  rcases hsplit : createAndAdd m (JsMap.delete info.breakpoints source) source
      lines conds now 0 with ⟨m2, store2, newBps⟩
  obtain ⟨ha, hb, hc, hd⟩ := createAndAdd_spec source conds now lines m
    (JsMap.delete info.breakpoints source) 0 m2 store2 newBps hsplit
  have hget2 : JsMap.get store2 source = some newBps := by
    rw [hd]
    have : lines.isEmpty = false := by
      cases lines with
      | nil => exact absurd rfl hne
      | cons a b => rfl
    simp [this]
  have hlen : resp.length ≤ newBps.length := by
    have := congrArg List.length hb
    simp only [List.length_map] at this
    omega
  obtain ⟨out, hout, hline, hid⟩ := applyVerification_total newBps resp hlen
  have hexec : setBreakpointsExec sessions m sid source lines conds resp now
      = (.ok ("Set " ++ toString newBps.length ++ " breakpoints in " ++ source),
         SessionManager.updateActivity (SessionManager.logDebugEvent
           (JsMap.set sessions sid { info with breakpoints := JsMap.set store2 source out })
           sid "breakpoints_set" source now) sid now,
         m2) := by
    simp only [setBreakpointsExec, hval, hsplit, hget2, hout]
  have hinfo2 : JsMap.get (SessionManager.updateActivity (SessionManager.logDebugEvent
      (JsMap.set sessions sid { info with breakpoints := JsMap.set store2 source out })
      sid "breakpoints_set" source now) sid now) sid
      = some { SessionInfo.logEvent
                 { info with breakpoints := JsMap.set store2 source out }
                 sid "breakpoints_set" source now with
               lastActivityAt := now } := by
    simp [SessionManager.logDebugEvent, SessionManager.updateActivity,
      SessionInfo.logEvent, JsMap.get_set_self]
  refine ⟨_, _, m2, _, out, hexec, by omega, hinfo2, rfl, ?_, ?_, ?_⟩
  · exact JsMap.get_set_self _ _ _
  · rw [hline, hb]
  · rw [hid, hc]

/-- C2: `setBreakpoints(file,[10,20])` then `setBreakpoints(file,[20,30])`
leaves the store holding exactly breakpoints at lines 20 and 30 for that file
(none at line 10), and ids are assigned from the strictly increasing
per-manager counter and never reused: the first call assigns ids c+1, c+2, the
second c+3, c+4, all pairwise distinct. -/
theorem setBreakpoints_replace_and_unique_ids
    (sessions : Sessions) (c : Nat) (sid file : String) (info : SessionInfo)
    (resp1 resp2 : List Bool) (now1 now2 : Nat)
    (hs : JsMap.get sessions sid = some info)
    (hstate : info.state = SessionState.connected ∨ info.state = SessionState.stopped
      ∨ info.state = SessionState.running)
    (hr1 : resp1.length ≤ 2) (hr2 : resp2.length ≤ 2) :
    ∃ msg1 sessions1 m1 info1 out1 msg2 sessions2 m2 info2 out2,
      setBreakpointsExec sessions ⟨c⟩ sid file [10, 20] none resp1 now1
        = (.ok msg1, sessions1, m1) ∧
      setBreakpointsExec sessions1 m1 sid file [20, 30] none resp2 now2
        = (.ok msg2, sessions2, m2) ∧
      JsMap.get sessions1 sid = some info1 ∧
      JsMap.get info1.breakpoints file = some out1 ∧
      out1.map BreakpointInfo.line = [10, 20] ∧
      out1.map BreakpointInfo.id = [c + 1, c + 2] ∧
      JsMap.get sessions2 sid = some info2 ∧
      JsMap.get info2.breakpoints file = some out2 ∧
      out2.map BreakpointInfo.line = [20, 30] ∧
      (∀ bp ∈ out2, bp.line ≠ 10) ∧
      out2.map BreakpointInfo.id = [c + 3, c + 4] ∧
      m1.breakpointIdCounter = c + 2 ∧
      m2.breakpointIdCounter = c + 4 ∧
      ([c + 1, c + 2, c + 3, c + 4] : List Nat).Nodup ∧
      (∀ bp1 ∈ out1, ∀ bp2 ∈ out2, bp1.id ≠ bp2.id) := by
  obtain ⟨msg1, sessions1, m1, info1, out1, hexec1, hm1, hget1, hst1, hsrc1, hline1, hid1⟩ :=
    setBreakpointsExec_spec sessions ⟨c⟩ sid file [10, 20] none resp1 now1 info
      hs hstate (by simp) (by simpa using hr1)
  obtain ⟨msg2, sessions2, m2, info2, out2, hexec2, hm2, hget2, hst2, hsrc2, hline2, hid2⟩ :=
    setBreakpointsExec_spec sessions1 m1 sid file [20, 30] none resp2 now2 info1
      hget1 (by rw [hst1]; exact hstate) (by simp) (by simpa using hr2)
  have hid1F : out1.map BreakpointInfo.id = [c + 1, c + 2] := by
    rw [hid1]; rfl
  have hid2F : out2.map BreakpointInfo.id = [c + 3, c + 4] := by
    rw [hid2, hm1]; rfl
  refine ⟨msg1, sessions1, m1, info1, out1, msg2, sessions2, m2, info2, out2,
    hexec1, hexec2, hget1, hsrc1, hline1, hid1F, hget2, hsrc2, hline2, ?_,
    hid2F, by simpa using hm1, by simp at hm1 hm2; omega, by simp, ?_⟩
  · intro bp hbp
    have hmem : bp.line ∈ out2.map BreakpointInfo.line := List.mem_map_of_mem _ hbp
    rw [hline2] at hmem
    simp at hmem
    omega
  · intro bp1 h1 bp2 h2
    have hmem1 : bp1.id ∈ out1.map BreakpointInfo.id := List.mem_map_of_mem _ h1
    have hmem2 : bp2.id ∈ out2.map BreakpointInfo.id := List.mem_map_of_mem _ h2
    rw [hid1F] at hmem1
    rw [hid2F] at hmem2
    simp at hmem1 hmem2
    omega

/-- Witness for C2 at a concrete input: counter 0, a connected session, both
adapter responses fully verified. -/
theorem setBreakpoints_replace_and_unique_ids_witness :
    ∃ msg1 sessions1 m1 info1 out1 msg2 sessions2 m2 info2 out2,
      setBreakpointsExec [("s1", { infoSample with state := SessionState.connected })]
          ⟨0⟩ "s1" "app.js" [10, 20] none [true, true] 1
        = (.ok msg1, sessions1, m1) ∧
      setBreakpointsExec sessions1 m1 "s1" "app.js" [20, 30] none [true, true] 2
        = (.ok msg2, sessions2, m2) ∧
      JsMap.get sessions1 "s1" = some info1 ∧
      JsMap.get info1.breakpoints "app.js" = some out1 ∧
      out1.map BreakpointInfo.line = [10, 20] ∧
      out1.map BreakpointInfo.id = [0 + 1, 0 + 2] ∧
      JsMap.get sessions2 "s1" = some info2 ∧
      JsMap.get info2.breakpoints "app.js" = some out2 ∧
      out2.map BreakpointInfo.line = [20, 30] ∧
      (∀ bp ∈ out2, bp.line ≠ 10) ∧
      out2.map BreakpointInfo.id = [0 + 3, 0 + 4] ∧
      m1.breakpointIdCounter = 0 + 2 ∧
      m2.breakpointIdCounter = 0 + 4 ∧
      ([0 + 1, 0 + 2, 0 + 3, 0 + 4] : List Nat).Nodup ∧
      (∀ bp1 ∈ out1, ∀ bp2 ∈ out2, bp1.id ≠ bp2.id) :=
  setBreakpoints_replace_and_unique_ids
    [("s1", { infoSample with state := SessionState.connected })] 0 "s1" "app.js"
    { infoSample with state := SessionState.connected } [true, true] [true, true]
    1 2 (by decide) (Or.inl rfl) (by decide) (by decide)

/-! ## Helper lemmas: the framing loop -/

theorem isPrefixSeq_append_self : ∀ (p x : List Char), isPrefixSeq p (p ++ x) = true := by
  intro p x
  induction p with
  | nil => rfl
  | cons c cs ih => simp [isPrefixSeq, ih]

theorem firstIndexOfSeq_noCR (noCR : List Char) (h : ∀ ch ∈ noCR, ch ≠ '\r') :
    ∀ rest, firstIndexOfSeq crlf2 (noCR ++ (crlf2 ++ rest)) = some noCR.length := by
  induction noCR with
  | nil =>
    intro rest
    have hp : isPrefixSeq crlf2 (crlf2 ++ rest) = true := isPrefixSeq_append_self crlf2 rest
    simp only [List.nil_append, List.length_nil]
    rw [show firstIndexOfSeq crlf2 (crlf2 ++ rest)
        = if isPrefixSeq crlf2 (crlf2 ++ rest) then some 0
          else (firstIndexOfSeq crlf2 (['\n', '\r', '\n'] ++ rest)).map (· + 1) from rfl]
    rw [hp]
    rfl
  | cons c cs ih =>
    intro rest
    have hc : c ≠ '\r' := h c (List.mem_cons_self c cs)
    have hcs : ∀ ch ∈ cs, ch ≠ '\r' := fun ch hm => h ch (List.mem_cons_of_mem c hm)
    rw [List.cons_append]
    rw [show firstIndexOfSeq crlf2 (c :: (cs ++ (crlf2 ++ rest)))
        = if isPrefixSeq crlf2 (c :: (cs ++ (crlf2 ++ rest))) then some 0
          else (firstIndexOfSeq crlf2 (cs ++ (crlf2 ++ rest))).map (· + 1) from rfl]
    have hpre : isPrefixSeq crlf2 (c :: (cs ++ (crlf2 ++ rest))) = false := by
      simp only [crlf2, isPrefixSeq, Bool.and_eq_false_iff]
      left
      simpa [eq_comm] using hc
    rw [hpre, if_neg (by simp), ih hcs rest]
    rfl

theorem firstIndexOfSeq_short (noCR : List Char) (h : ∀ ch ∈ noCR, ch ≠ '\r') :
    ∀ k, k < noCR.length + 4 →
      firstIndexOfSeq crlf2 ((noCR ++ crlf2).take k) = none := by
  induction noCR with
  | nil =>
    intro k hk
    simp only [List.length_nil, Nat.zero_add] at hk
    interval_cases k <;> decide
  | cons c cs ih =>
    intro k hk
    match k with
    | 0 => rfl
    | k + 1 =>
      rw [List.cons_append, List.take_succ_cons]
      have hc : c ≠ '\r' := h c (List.mem_cons_self c cs)
      have hcs : ∀ ch ∈ cs, ch ≠ '\r' := fun ch hm => h ch (List.mem_cons_of_mem c hm)
      rw [show firstIndexOfSeq crlf2 (c :: (cs ++ crlf2).take k)
          = if isPrefixSeq crlf2 (c :: (cs ++ crlf2).take k) then some 0
            else (firstIndexOfSeq crlf2 ((cs ++ crlf2).take k)).map (· + 1) from rfl]
      have hpre : isPrefixSeq crlf2 (c :: (cs ++ crlf2).take k) = false := by
        simp only [crlf2, isPrefixSeq, Bool.and_eq_false_iff]
        left
        simpa [eq_comm] using hc
      rw [hpre, if_neg (by simp)]
      rw [ih hcs k (by simp at hk; omega)]
      rfl

theorem digitVal_digitChar (d : Nat) (h : d < 10) : digitVal (digitChar d) = d := by
  interval_cases d <;> decide

theorem isDigit_digitChar (d : Nat) (h : d < 10) : (digitChar d).isDigit = true := by
  interval_cases d <;> decide

theorem decDigitsAux_lt : ∀ (fuel n d : Nat), d ∈ decDigitsAux fuel n → d < 10 := by
  intro fuel
  induction fuel with
  | zero => intro n d hd; simp [decDigitsAux] at hd
  | succ f ih =>
    intro n d hd
    cases n with
    | zero => simp [decDigitsAux] at hd
    | succ k =>
      simp only [decDigitsAux, List.mem_cons] at hd
      cases hd with
      | inl h => subst h; exact Nat.mod_lt _ (by norm_num)
      | inr h => exact ih _ _ h

theorem decDigitsAux_ne_nil : ∀ (fuel n : Nat), n ≠ 0 → n ≤ fuel →
    decDigitsAux fuel n ≠ [] := by
  intro fuel n h hle
  match fuel, n with
  | 0, n => omega
  | f + 1, 0 => exact absurd rfl h
  | f + 1, k + 1 => simp [decDigitsAux]

theorem decDigitsAux_ofDigits : ∀ (fuel n : Nat), n ≤ fuel →
    Nat.ofDigits 10 (decDigitsAux fuel n) = n := by
  intro fuel
  induction fuel with
  | zero =>
    intro n h
    have : n = 0 := by omega
    subst this
    simp [decDigitsAux]
  | succ f ih =>
    intro n h
    cases n with
    | zero => simp [decDigitsAux]
    | succ k =>
      have hdiv : (k + 1) / 10 ≤ f := by
        have := Nat.div_lt_self (Nat.succ_pos k) (by norm_num : 1 < 10)
        omega
      rw [show decDigitsAux (f + 1) (k + 1)
          = ((k + 1) % 10) :: decDigitsAux f ((k + 1) / 10) from rfl]
      rw [Nat.ofDigits_cons, ih ((k + 1) / 10) hdiv]
      have := Nat.mod_add_div (k + 1) 10
      omega

theorem decRepr_ne_nil (n : Nat) : decRepr n ≠ [] := by
  unfold decRepr
  split
  · simp
  · next h =>
    have := decDigitsAux_ne_nil n n h le_rfl
    simpa using this

theorem decRepr_digits (n : Nat) : ∀ ch ∈ decRepr n, ch.isDigit = true := by
  unfold decRepr
  split
  · intro ch hch
    simp only [List.mem_singleton] at hch
    subst hch
    decide
  · intro ch hch
    simp only [List.mem_map, List.mem_reverse] at hch
    obtain ⟨d, hd, rfl⟩ := hch
    exact isDigit_digitChar d (decDigitsAux_lt n n d hd)

theorem decRepr_ne_CR (n : Nat) : ∀ ch ∈ decRepr n, ch ≠ '\r' := by
  intro ch hch heq
  have hd := decRepr_digits n ch hch
  rw [heq] at hd
  exact absurd hd (by decide)

theorem noCR_header (n : Nat) : ∀ ch ∈ clLit ++ decRepr n, ch ≠ '\r' := by
  intro ch hch
  rw [List.mem_append] at hch
  cases hch with
  | inl h =>
    intro heq
    subst heq
    revert h
    decide
  | inr h => exact decRepr_ne_CR n ch h

theorem takeWhile_all (p : Char → Bool) :
    ∀ (l : List Char), (∀ c ∈ l, p c = true) → l.takeWhile p = l := by
  intro l
  induction l with
  | nil => intro _; rfl
  | cons c cs ih =>
    intro h
    rw [List.takeWhile_cons, h c (List.mem_cons_self c cs), ih
      (fun x hx => h x (List.mem_cons_of_mem c hx))]
    rfl

theorem parseDec_foldl (L : List Nat) (hL : ∀ d ∈ L, d < 10) : ∀ acc : Nat,
    List.foldl (fun acc c => acc * 10 + digitVal c) acc (L.reverse.map digitChar)
      = acc * 10 ^ L.length + Nat.ofDigits 10 L := by
  induction L with
  | nil => intro acc; simp
  | cons d T ih =>
    intro acc
    have hd : d < 10 := hL d (List.mem_cons_self d T)
    have hT : ∀ x ∈ T, x < 10 := fun x hx => hL x (List.mem_cons_of_mem d hx)
    simp only [List.reverse_cons, List.map_append, List.map_cons, List.map_nil,
      List.foldl_append, List.foldl_cons, List.foldl_nil]
    rw [ih hT acc, digitVal_digitChar d hd, Nat.ofDigits_cons, List.length_cons,
      pow_succ]
    ring

theorem parseDec_decRepr (n : Nat) : parseDec (decRepr n) = n := by
  unfold parseDec decRepr
  split
  · next h => subst h; decide
  · next h =>
    have := parseDec_foldl (decDigitsAux n n)
      (fun d hd => decDigitsAux_lt n n d hd) 0
    simpa [decDigitsAux_ofDigits n n le_rfl] using this

theorem clCapture_header (ds : List Char) (hne : ds ≠ [])
    (hdig : ∀ c ∈ ds, c.isDigit = true) :
    clCapture (clLit ++ ds) = some ds := by
  have hp : isPrefixSeq clLit (clLit ++ ds) = true := isPrefixSeq_append_self _ _
  rw [show clCapture (clLit ++ ds)
      = (if isPrefixSeq clLit (clLit ++ ds) then
          (if (((clLit ++ ds).drop clLit.length).takeWhile Char.isDigit).isEmpty
           then clCapture (List.tail (clLit ++ ds))
           else some (((clLit ++ ds).drop clLit.length).takeWhile Char.isDigit))
        else clCapture (List.tail (clLit ++ ds))) from rfl]
  rw [hp, show (clLit ++ ds).drop clLit.length = ds from List.drop_left clLit ds,
    takeWhile_all Char.isDigit ds hdig,
    show ds.isEmpty = false from by cases ds with
      | nil => exact absurd rfl hne
      | cons a b => rfl]
  rfl

theorem extractOne_frame (m s : List Char) :
    extractOne (frameMsg m ++ s) = some (m, s) := by
  have hbuf : frameMsg m ++ s
      = (clLit ++ decRepr m.length) ++ (crlf2 ++ (m ++ s)) := by
    simp [frameMsg, List.append_assoc]
  have hfind := firstIndexOfSeq_noCR (clLit ++ decRepr m.length)
    (noCR_header m.length) (m ++ s)
  have htake : ((clLit ++ decRepr m.length) ++ (crlf2 ++ (m ++ s))).take
      (clLit ++ decRepr m.length).length = clLit ++ decRepr m.length :=
    List.take_left _ _
  have hcap := clCapture_header (decRepr m.length) (decRepr_ne_nil _)
    (decRepr_digits _)
  have hnotlt : ¬ (((clLit ++ decRepr m.length) ++ (crlf2 ++ (m ++ s))).length
      < (clLit ++ decRepr m.length).length + 4 + m.length) := by
    simp only [List.length_append, crlf2, List.length_cons, List.length_nil]
    omega
  have hdrop1 : ((clLit ++ decRepr m.length) ++ (crlf2 ++ (m ++ s))).drop
      ((clLit ++ decRepr m.length).length + 4) = m ++ s := by
    rw [show (clLit ++ decRepr m.length) ++ (crlf2 ++ (m ++ s))
        = ((clLit ++ decRepr m.length) ++ crlf2) ++ (m ++ s) from by
      simp [List.append_assoc]]
    rw [show (clLit ++ decRepr m.length).length + 4
        = ((clLit ++ decRepr m.length) ++ crlf2).length from by simp [crlf2]; omega]
    exact List.drop_left _ _
  have hdrop2 : ((clLit ++ decRepr m.length) ++ (crlf2 ++ (m ++ s))).drop
      ((clLit ++ decRepr m.length).length + 4 + m.length) = s := by
    rw [show (clLit ++ decRepr m.length) ++ (crlf2 ++ (m ++ s))
        = (((clLit ++ decRepr m.length) ++ crlf2) ++ m) ++ s from by
      simp [List.append_assoc]]
    rw [show (clLit ++ decRepr m.length).length + 4 + m.length
        = (((clLit ++ decRepr m.length) ++ crlf2) ++ m).length from by
      simp [crlf2]; omega]
    exact List.drop_left _ _
  rw [hbuf]
  simp only [extractOne, hfind, htake, hcap, parseDec_decRepr, hnotlt, if_false,
    hdrop1, hdrop2]
  rw [show (m ++ s).take m.length = m from List.take_left m s]

theorem extractOne_partial (m : List Char) (k : Nat) (hk : k < (frameMsg m).length) :
    extractOne ((frameMsg m).take k) = none := by
  have hframe : frameMsg m = ((clLit ++ decRepr m.length) ++ crlf2) ++ m := by
    simp [frameMsg, List.append_assoc]
  have hlen4 : ((clLit ++ decRepr m.length) ++ crlf2).length
      = (clLit ++ decRepr m.length).length + 4 := by simp [crlf2]; omega
  by_cases hcase : k < (clLit ++ decRepr m.length).length + 4
  · have htake : (frameMsg m).take k = ((clLit ++ decRepr m.length) ++ crlf2).take k := by
      rw [hframe]
      exact List.take_append_of_le_length (by rw [hlen4]; omega)
    have hshort := firstIndexOfSeq_short (clLit ++ decRepr m.length)
      (noCR_header m.length) k hcase
    rw [htake]
    unfold extractOne
    rw [hshort]
  · obtain ⟨j, rfl⟩ : ∃ j, k = (clLit ++ decRepr m.length).length + 4 + j :=
      ⟨k - ((clLit ++ decRepr m.length).length + 4), by omega⟩
    have hflen : (frameMsg m).length
        = (clLit ++ decRepr m.length).length + 4 + m.length := by
      simp [frameMsg, crlf2]; omega
    have hjm : j < m.length := by rw [hflen] at hk; omega
    have htake : (frameMsg m).take ((clLit ++ decRepr m.length).length + 4 + j)
        = (clLit ++ decRepr m.length) ++ (crlf2 ++ m.take j) := by
      rw [hframe, show (clLit ++ decRepr m.length).length + 4
          = ((clLit ++ decRepr m.length) ++ crlf2).length from hlen4.symm,
        List.take_append, List.append_assoc]
    have hfind := firstIndexOfSeq_noCR (clLit ++ decRepr m.length)
      (noCR_header m.length) (m.take j)
    have htakeHdr : ((clLit ++ decRepr m.length) ++
        (crlf2 ++ m.take j)).take
        (clLit ++ decRepr m.length).length = clLit ++ decRepr m.length :=
      List.take_left _ _
    have hcap := clCapture_header (decRepr m.length) (decRepr_ne_nil _)
      (decRepr_digits _)
    have hlt : ((clLit ++ decRepr m.length) ++ (crlf2 ++ m.take j)).length
        < (clLit ++ decRepr m.length).length + 4 + m.length := by
      simp only [List.length_append, crlf2, List.length_cons, List.length_nil,
        List.length_take]
      omega
    rw [htake]
    simp only [extractOne, hfind, htakeHdr, hcap, parseDec_decRepr, hlt, if_true]

theorem extractLoop_on_prefix :
    ∀ (n : Nat) (b : List Char) (msgs : List (List Char)) (fuel : Nat),
      b.length ≤ n → (∃ t, b ++ t = (msgs.map frameMsg).flatten) → b.length ≤ fuel →
      ∃ ms1 ms2 r,
        msgs = ms1 ++ ms2 ∧
        extractLoop fuel b = (ms1, r) ∧
        (ms1.map frameMsg).flatten ++ r = b ∧
        (∃ t2, r ++ t2 = (ms2.map frameMsg).flatten) ∧
        extractOne r = none := by
  intro n
  induction n with
  | zero =>
    intro b msgs fuel hn hpre hfuel
    have hb : b = [] := List.length_eq_zero.mp (Nat.le_zero.mp hn)
    subst hb
    refine ⟨[], msgs, [], by simp, by cases fuel <;> rfl, by simp, ?_, rfl⟩
    obtain ⟨t, ht⟩ := hpre
    exact ⟨t, ht⟩
  | succ n ih =>
    intro b msgs fuel hn hpre hfuel
    cases msgs with
    | nil =>
      obtain ⟨t, ht⟩ := hpre
      simp only [List.map_nil, List.flatten_nil, List.append_eq_nil] at ht
      obtain ⟨rfl, rfl⟩ := ht
      exact ⟨[], [], [], rfl, by cases fuel <;> rfl, rfl, ⟨[], rfl⟩, rfl⟩
    | cons m rest =>
      obtain ⟨t, ht⟩ := hpre
      rw [List.map_cons, List.flatten_cons] at ht
      by_cases hlen : b.length < (frameMsg m).length
      · have hbtake : b = (frameMsg m).take b.length := by
          have h1 : (b ++ t).take b.length = b := List.take_left b t
          rw [ht] at h1
          rw [List.take_append_of_le_length (by omega)] at h1
          exact h1.symm
        have hext : extractOne b = none := by
          rw [hbtake]
          exact extractOne_partial m b.length hlen
        have hloop : extractLoop fuel b = ([], b) := by
          cases fuel with
          | zero => rfl
          | succ f => simp [extractLoop, hext]
        refine ⟨[], m :: rest, b, by simp, hloop, by simp, ⟨t, ?_⟩, hext⟩
        rw [ht, List.map_cons, List.flatten_cons]
      · push_neg at hlen
        have htak : b.take (frameMsg m).length = frameMsg m := by
          have h1 : (b ++ t).take (frameMsg m).length = frameMsg m := by
            rw [ht]
            exact List.take_left _ _
          rw [List.take_append_of_le_length hlen] at h1
          exact h1
        have hbsplit : b = frameMsg m ++ b.drop (frameMsg m).length := by
          conv_lhs => rw [← List.take_append_drop (frameMsg m).length b]
          rw [htak]
        have hb2pre : ∃ t2, b.drop (frameMsg m).length ++ t2
            = (rest.map frameMsg).flatten := by
          refine ⟨t, ?_⟩
          have h2 := ht
          conv_lhs at h2 => rw [hbsplit]
          rw [List.append_assoc] at h2
          exact List.append_cancel_left h2
        have hext : extractOne b = some (m, b.drop (frameMsg m).length) := by
          conv_lhs => rw [hbsplit]
          exact extractOne_frame m _
        have hfr1 : 1 ≤ (frameMsg m).length := by
          simp [frameMsg, clLit, crlf2]
        have hdlen : (b.drop (frameMsg m).length).length
            = b.length - (frameMsg m).length := List.length_drop _ _
        obtain ⟨f, rfl⟩ : ∃ f, fuel = f + 1 := ⟨fuel - 1, by omega⟩
        obtain ⟨ms1, ms2, r, hms, hloop2, hjoin, hpre2, hext2⟩ :=
          ih (b.drop (frameMsg m).length) rest f (by omega) hb2pre (by omega)
        have hloop : extractLoop (f + 1) b = (m :: ms1, r) := by
          rw [show extractLoop (f + 1) b
              = (match extractOne b with
                 | none => ([], b)
                 | some (message, rest2) =>
                     let p := extractLoop f rest2
                     (message :: p.1, p.2)) from rfl]
          rw [hext]
          simp [hloop2]
        refine ⟨m :: ms1, ms2, r, by rw [hms]; rfl, hloop, ?_, hpre2, hext2⟩
        rw [List.map_cons, List.flatten_cons, List.append_assoc, hjoin]
        exact hbsplit.symm

theorem processChunks_go :
    ∀ (cs : List (List Char)) (acc : List (List Char)) (r : List Char)
      (pending : List (List Char)),
      r ++ cs.flatten = (pending.map frameMsg).flatten →
      extractOne r = none →
      cs.foldl feedChunk (acc, r) = (acc ++ pending, []) := by
  intro cs
  induction cs with
  | nil =>
    intro acc r pending hinv hext
    simp only [List.flatten_nil, List.append_nil] at hinv
    cases pending with
    | nil =>
      simp only [List.map_nil, List.flatten_nil] at hinv
      subst hinv
      simp
    | cons m rest =>
      exfalso
      rw [List.map_cons, List.flatten_cons] at hinv
      rw [hinv, extractOne_frame] at hext
      exact Option.noConfusion hext
  | cons c cs ih =>
    intro acc r pending hinv hext
    rw [List.foldl_cons]
    have hpre : ∃ t, (r ++ c) ++ t = (pending.map frameMsg).flatten := by
      refine ⟨cs.flatten, ?_⟩
      rw [List.append_assoc, ← hinv, List.flatten_cons]
    obtain ⟨ms1, ms2, r2, hms, hloop, hjoin, hpre2, hext2⟩ :=
      extractLoop_on_prefix (r ++ c).length (r ++ c) pending (r ++ c).length
        le_rfl hpre le_rfl
    have hfeed : feedChunk (acc, r) c = (acc ++ ms1, r2) := by
      simp only [feedChunk, hloop]
    rw [hfeed]
    have hinv2 : r2 ++ cs.flatten = (ms2.map frameMsg).flatten := by
      have h1 : (pending.map frameMsg).flatten
          = (ms1.map frameMsg).flatten ++ (ms2.map frameMsg).flatten := by
        rw [hms, List.map_append, List.flatten_append]
      have h2 : ((ms1.map frameMsg).flatten ++ r2) ++ cs.flatten
          = (ms1.map frameMsg).flatten ++ (ms2.map frameMsg).flatten := by
        rw [hjoin]
        rw [← h1, ← hinv, List.flatten_cons, List.append_assoc]
      rw [List.append_assoc] at h2
      exact List.append_cancel_left h2
    rw [ih (acc ++ ms1) r2 ms2 hinv2 hext2, hms, List.append_assoc]

/-- C1: the framing loop is split-invariant. For every sequence of protocol
message bodies and every division of the framed stream into successive reads,
the buffering loop emits exactly the message bodies, in order, with an empty
final buffer — the same result as one whole-stream read (the case
`chunks = [stream]`). The loop extracts every complete Content-Length-delimited
message available and keeps partial trailing bytes buffered between reads. -/
theorem framer_split_invariance (msgs chunks : List (List Char))
    (h : chunks.flatten = (msgs.map frameMsg).flatten) :
    processChunks chunks = (msgs, []) := by
  have hgo := processChunks_go chunks [] [] msgs (by simpa using h) rfl
  simpa [processChunks] using hgo

/-- Witness for C1 at a concrete input: the frame of body `hi`, split mid-header
into two reads, yields exactly `hi` — the same as the single whole read. -/
theorem framer_split_invariance_witness :
    processChunks [['C', 'o', 'n', 't', 'e'],
      ['n', 't', '-', 'L', 'e', 'n', 'g', 't', 'h', ':', ' ', '2',
       '\r', '\n', '\r', '\n', 'h', 'i']] = ([['h', 'i']], []) ∧
    processChunks [frameMsg ['h', 'i']] = ([['h', 'i']], []) :=
  ⟨framer_split_invariance [['h', 'i']]
      [['C', 'o', 'n', 't', 'e'],
       ['n', 't', '-', 'L', 'e', 'n', 'g', 't', 'h', ':', ' ', '2',
        '\r', '\n', '\r', '\n', 'h', 'i']] (by decide),
   framer_split_invariance [['h', 'i']] [frameMsg ['h', 'i']] (by decide)⟩

end DebuggerMcp
